import Mathlib

/-!
Verification of the willow-leather-api backend (IPL-style cricket manager).

Shallow embedding of the three engines (auction, DNA match engine v2,
season engine) and their data model, translated from the Python source:

* `app/models/auction.py`, `app/engine/auction_engine.py`,
  `app/api/auction.py`   — auction data model and bidding protocol;
* `app/engine/match_engine_v2.py`, `app/api/match.py` — ball-by-ball
  T20 simulation (full-over path and interactive path);
* `app/generators/player_generator.py`, `app/models/player.py` — player
  generation and overall rating;
* `app/engine/season_engine.py`, `app/models/career.py` — fixtures and
  standings.

Modelling conventions:
* Python integers become `Int` (or `Nat` where the source value is
  manifestly non-negative); monetary amounts are `Int` in paise.
* Python floats become `ℚ` (exact arithmetic; the source only compares
  such values against random rolls and thresholds).
* Every call to the `random` module becomes an explicit oracle input
  (a rational roll in [0,1), a choice index, or a boolean), so each
  concrete Python execution corresponds to one oracle valuation and
  properties quantified over oracles cover all executions.
* Python dicts keyed by ids become association lists.
-/

set_option maxRecDepth 100000
set_option maxHeartbeats 2000000

attribute [local semireducible] Rat.ofScientific Rat.add Rat.sub Rat.mul Rat.inv

namespace Willow

/-! ## Auction data model — `app/models/auction.py` -/

/-- Player roles, from `app/models/player.py` (`PlayerRole`). -/
inductive PlayerRole where
  | batsman
  | bowler
  | all_rounder
  | wicket_keeper
deriving DecidableEq, Repr

/-- `TeamAuctionState` — per-(auction, team) running counters
(`app/models/auction.py`, lines 129-173). -/
structure TeamAuctionState where
  remaining_budget : Int
  total_players : Nat
  overseas_players : Nat
  batsmen : Nat
  bowlers : Nat
  all_rounders : Nat
  wicket_keepers : Nat
deriving DecidableEq, Repr

/-- `slots_remaining` property: `25 - total_players`. -/
def TeamAuctionState.slots_remaining (s : TeamAuctionState) : Int :=
  25 - (s.total_players : Int)

/-- `overseas_slots_remaining` property: `8 - overseas_players`. -/
def TeamAuctionState.overseas_slots_remaining (s : TeamAuctionState) : Int :=
  8 - (s.overseas_players : Int)

/-- `min_players_needed` property: `max(0, 18 - total_players)`. -/
def TeamAuctionState.min_players_needed (s : TeamAuctionState) : Int :=
  max 0 (18 - (s.total_players : Int))

/-- `max_bid_possible` property (`app/models/auction.py` lines 162-170):
`slots_to_fill = min_players_needed - 1` (the `-1` is for the current
player), `reserved = slots_to_fill * 20000000` (2 crore each), result
`max(0, remaining_budget - reserved)`. -/
def TeamAuctionState.max_bid_possible (s : TeamAuctionState) : Int :=
  let slots_to_fill := s.min_players_needed - 1
  let reserved := slots_to_fill * 20000000
  max 0 (s.remaining_budget - reserved)

/-! ## Auction engine — `app/engine/auction_engine.py` -/

/-- `BID_INCREMENTS` table (lines 55-61): `(threshold, increment)` pairs. -/
def BID_INCREMENTS : List (Int × Int) :=
  [(0, 500000), (10000000, 1000000), (50000000, 2500000),
   (100000000, 5000000), (150000000, 10000000)]

/-- `get_next_bid_amount` (lines 146-152): scan the table, keep the last
increment whose threshold is `≤ current_bid`, return `current_bid + inc`. -/
def getNextBidAmount (current_bid : Int) : Int :=
  let increment := (BID_INCREMENTS.foldl
    (fun acc ti => if current_bid ≥ ti.1 then ti.2 else acc) 500000)
  current_bid + increment

/-- The player fields the auction state machine reads. -/
structure PlayerInfo where
  is_overseas : Bool
  role : PlayerRole
deriving DecidableEq, Repr

/-- The slice of `Auction` bidding state relevant to one tracked team,
together with that team's `TeamAuctionState`: `current_bid`,
whether the tracked team is `current_bidder_team_id`, and the
player currently in bidding (`current_player_id`, carried as the
fields finalisation reads). -/
structure AuctionRunState where
  team : TeamAuctionState
  current_bid : Int
  bidder_is_team : Bool
  current_player : Option PlayerInfo
deriving DecidableEq, Repr

/-- The auction operations affecting one team's state, from
`AuctionEngine` and `app/api/auction.py`:
* `startBidding` — `start_bidding`: sets `current_bid` to the player's
  base price and clears the bidder;
* `teamBid` — an accepted bid by the tracked team, guarded by the checks
  of `place_user_bid` (squad size, overseas limit) and `place_bid`
  (amount ≤ `max_bid_possible`, amount > `current_bid`);
* `rivalBid` — an accepted bid by some other team (validated against
  that team's own state, which is not tracked here);
* `finalizePlayer` — `finalize_player`: if the tracked team holds the
  highest bid, debit the budget and bump the counters, then clear the
  bidding state. -/
inductive AuctionOp where
  | startBidding (base : Int) (p : PlayerInfo)
  | teamBid (amount : Int)
  | rivalBid (amount : Int)
  | finalizePlayer
deriving DecidableEq, Repr

/-- Counter updates applied by `finalize_player` (lines 373-386). -/
def applyPurchase (t : TeamAuctionState) (price : Int) (p : PlayerInfo) :
    TeamAuctionState :=
  { t with
    remaining_budget := t.remaining_budget - price
    total_players := t.total_players + 1
    overseas_players := t.overseas_players + (if p.is_overseas then 1 else 0)
    batsmen := t.batsmen + (if p.role = PlayerRole.batsman then 1 else 0)
    bowlers := t.bowlers + (if p.role = PlayerRole.bowler then 1 else 0)
    all_rounders :=
      t.all_rounders + (if p.role = PlayerRole.all_rounder then 1 else 0)
    wicket_keepers :=
      t.wicket_keepers + (if p.role = PlayerRole.wicket_keeper then 1 else 0) }

/-- One auction operation.  `none` means the operation was rejected and
the state is unchanged (the engine's failure semantics: invalid bids
return `False` without mutation). -/
def stepOp (s : AuctionRunState) (op : AuctionOp) : Option AuctionRunState :=
  match op with
  | .startBidding base p =>
      some { s with current_bid := base, bidder_is_team := false,
                    current_player := some p }
  | .teamBid amount =>
      match s.current_player with
      | none => none
      | some p =>
          -- place_user_bid guards (app/api/auction.py lines 209-215)
          if amount > s.team.max_bid_possible then none
          else if p.is_overseas ∧ s.team.overseas_players ≥ 8 then none
          else if s.team.total_players ≥ 25 then none
          -- place_bid guards (app/engine/auction_engine.py lines 329-333)
          else if amount ≤ s.current_bid then none
          else some { s with current_bid := amount, bidder_is_team := true }
  | .rivalBid amount =>
      if amount ≤ s.current_bid then none
      else some { s with current_bid := amount, bidder_is_team := false }
  | .finalizePlayer =>
      match s.current_player with
      | none => none
      | some p =>
          if s.bidder_is_team then
            some { team := applyPurchase s.team s.current_bid p,
                   current_bid := 0, bidder_is_team := false,
                   current_player := none }
          else
            some { s with current_bid := 0, bidder_is_team := false,
                          current_player := none }

/-- Run a list of operations; fails if any operation is rejected. -/
def runOps (ops : List AuctionOp) (s : AuctionRunState) :
    Option AuctionRunState :=
  match ops with
  | [] => some s
  | op :: rest =>
      match stepOp s op with
      | none => none
      | some s2 => runOps rest s2

/-- Initial auction state for a team (`initialize_auction`:
`remaining_budget = team.budget`, all counters zero; default budget
900 000 000 from `app/models/team.py`). -/
def initialTeamState : TeamAuctionState :=
  ⟨900000000, 0, 0, 0, 0, 0, 0⟩

/-- Initial run state: no player in bidding. -/
def initialRunState : AuctionRunState :=
  ⟨initialTeamState, 0, false, none⟩

/-! ### Competitive AI-only bidding — `run_competitive_ai_bidding`
(`app/engine/auction_engine.py` lines 558-631) and `quick_pass_player`
(lines 665-676).

The per-team valuations (`_calculate_player_value`) are random-valued
(±15 % uniform variance over a float heuristic), so they enter as an
oracle `vals`; the probabilistic acceptance test `random.random() < prob`
(where `prob ≥ 0.2`) enters as a boolean oracle `accept`; the
`random.choice` over willing bidders enters as an index oracle `pick`.
The source computes `team_valuations` only for teams whose id differs
from `exclude_team_id`, which `mkValuations` mirrors. -/

/-- A team participating in the auction, with its id. -/
structure TeamEntry where
  tid : Nat
  state : TeamAuctionState
deriving DecidableEq, Repr

/-- Auction-level bidding state for the competitive run. -/
structure BidState where
  current_bid : Int
  current_bidder : Option Nat
deriving DecidableEq, Repr

/-- `team_valuations` dict: one entry per team with `tid ≠ exclude`,
carrying that team's (oracle-valued) valuation of the player. -/
def mkValuations (teams : List TeamEntry) (exclude : Option Nat)
    (vals : Nat → Int) : List (Nat × Int) :=
  (teams.filter (fun t => some t.tid ≠ exclude)).map (fun t => (t.tid, vals t.tid))

/-- Look up a team's `TeamAuctionState` (`self._team_states[team_id]`). -/
def lookupTeamState (teams : List TeamEntry) (tid : Nat) : TeamAuctionState :=
  ((teams.find? (fun t => t.tid = tid)).map (·.state)).getD initialTeamState

/-- The deterministic eligibility guards of one round of
`run_competitive_ai_bidding` (lines 587-601): not already the highest
bidder, squad not full, overseas limit, bid within `max_bid_possible`
and within the team's valuation. -/
def willingGuards (teams : List TeamEntry) (player : PlayerInfo)
    (bidder : Option Nat) (next_bid : Int) (tv : Nat × Int) : Bool :=
  some tv.1 ≠ bidder ∧
  (lookupTeamState teams tv.1).total_players < 25 ∧
  ¬(player.is_overseas ∧ (lookupTeamState teams tv.1).overseas_players ≥ 8) ∧
  next_bid ≤ (lookupTeamState teams tv.1).max_bid_possible ∧
  next_bid ≤ tv.2

/-- One pass of the `for` loop body inside `run_competitive_ai_bidding`,
folded into fuel recursion.  `round` indexes the oracles.  Stops after
two consecutive passes or when the 100-round safety cap (the fuel)
runs out. -/
def runCompetitiveAux (teams : List TeamEntry) (player : PlayerInfo)
    (valuations : List (Nat × Int)) (accept : Nat → Nat → Bool)
    (pick : Nat → Nat) : Nat → Nat → BidState → BidState
  | 0, _, s => s
  | fuel + 1, passes, s =>
      if passes ≥ 2 then s
      else
        let next_bid := getNextBidAmount s.current_bid
        let willing := (valuations.filter
          (fun tv => willingGuards teams player s.current_bidder next_bid tv ∧
                     accept fuel tv.1)).map (·.1)
        match willing with
        | [] => runCompetitiveAux teams player valuations accept pick fuel
            (passes + 1) s
        | w :: ws =>
            let bidder := (w :: ws).getD (pick fuel % (w :: ws).length) w
            -- place_bid validation (amount ≤ max bid holds by the guard;
            -- next_bid > current_bid since every increment is positive)
            if next_bid ≤ s.current_bid ∨
               next_bid > (lookupTeamState teams bidder).max_bid_possible then
              runCompetitiveAux teams player valuations accept pick fuel
                (passes + 1) s
            else
              runCompetitiveAux teams player valuations accept pick fuel 0
                ⟨next_bid, some bidder⟩

/-- `run_competitive_ai_bidding` with its 100-round safety cap. -/
def runCompetitiveAiBidding (teams : List TeamEntry) (player : PlayerInfo)
    (exclude : Option Nat) (vals : Nat → Int) (accept : Nat → Nat → Bool)
    (pick : Nat → Nat) (s : BidState) : BidState :=
  runCompetitiveAux teams player (mkValuations teams exclude vals) accept pick
    100 0 s

/-- The team an immediately following `finalize_player` sells to: the
`current_bidder_team_id` left by the run (`none` = unsold).  This is the
result a `quick_pass_player` call reports as `sold_to_team_id`. -/
def quickPassSoldTo (teams : List TeamEntry) (player : PlayerInfo)
    (exclude : Option Nat) (vals : Nat → Int) (accept : Nat → Nat → Bool)
    (pick : Nat → Nat) (s : BidState) : Option Nat :=
  (runCompetitiveAiBidding teams player exclude vals accept pick s).current_bidder

/-- The skip-category path (`auction_category_ai_only`, lines 633-663)
first calls `start_bidding` on each entry, which resets
`current_bidder_team_id` to `None` and `current_bid` to the base price,
before running the competitive bidding. -/
def skipCategorySoldTo (teams : List TeamEntry) (player : PlayerInfo)
    (base : Int) (exclude : Option Nat) (vals : Nat → Int)
    (accept : Nat → Nat → Bool) (pick : Nat → Nat) : Option Nat :=
  quickPassSoldTo teams player exclude vals accept pick ⟨base, none⟩

/-! ## Match engine v2 — `app/engine/match_engine_v2.py`

The per-ball randomness (wide/no-ball roll, jaffa roll, the Gaussian
margin, run-resolution rolls, dismissal draws, choice indices) enters
through a `BallRand` oracle record.  The bowler-attack / batter-skill
rating pipeline (steps 1-6 of `_simulate_ball_v2`) only shifts the mean
of the unbounded Gaussian that produces the margin, so the margin
itself — `calculate_margin`'s `batter_performance - (attack + tac)` —
is taken directly from the oracle; everything downstream of the margin
(`resolve_contact` and the resolution functions) is translated
literally. -/

/-- Batting approach (`approach_mods` keys in `calculate_margin`). -/
inductive Approach where
  | survive
  | rotate
  | push
  | all_out
deriving DecidableEq, Repr

/-- API aggression levels (`AGGRESSION_MAP` keys). -/
inductive Aggression where
  | defend
  | balanced
  | attack
deriving DecidableEq, Repr

/-- Contact classes (`resolve_contact` results). -/
inductive Contact where
  | perfect
  | good
  | decent
  | defended
  | beaten
  | edge
  | clean_beat
deriving DecidableEq, Repr

/-- Contact class as the string stored in `BallOutcome.contact_quality`. -/
def Contact.str : Contact → String
  | .perfect => "perfect"
  | .good => "good"
  | .decent => "decent"
  | .defended => "defended"
  | .beaten => "beaten"
  | .edge => "edge"
  | .clean_beat => "clean_beat"

/-- The player fields the embedded match engine reads: id, role, the
coarse `bowling` and `power` attributes (DNA fallbacks), bowler-DNA
`control` (`none` when the player has no bowler DNA) and batter-DNA
`power` (`none` when the player has no batting DNA; `_simulate_ball_v2`
then synthesises a fallback whose power equals the coarse attribute). -/
structure MPlayer where
  pid : Nat
  role : PlayerRole
  bowling : Nat
  power : Nat
  dnaControl : Option ℚ
  dnaPower : Option Nat
deriving DecidableEq, Repr

/-- Placeholder player (the Python `next(...)` lookups assume presence;
all states used in the theorems are well-formed). -/
def defaultPlayer : MPlayer :=
  ⟨0, PlayerRole.batsman, 0, 0, none, none⟩

/-- The batter-DNA power actually used by `resolve_runs`: the DNA value,
or the fallback DNA built from the coarse `power` attribute. -/
def MPlayer.effPower (p : MPlayer) : Nat :=
  p.dnaPower.getD p.power

/-- `BallOutcome` (`match_engine_v2.py` lines 110-124; the commentary
string is not modelled — it never feeds back into any state). -/
structure BallOutcome where
  runs : Nat
  is_wicket : Bool
  is_wide : Bool
  is_no_ball : Bool
  is_boundary : Bool
  is_six : Bool
  dismissal_type : String
  contact_quality : String
deriving DecidableEq, Repr

/-- All-default outcome, as the dataclass defaults. -/
def emptyOutcome : BallOutcome :=
  ⟨0, false, false, false, false, false, "", ""⟩

/-- Python `max` on two rationals (kernel-computable). -/
def qmax (a b : ℚ) : ℚ :=
  if a ≤ b then b else a

/-- Python `min` on two rationals (kernel-computable). -/
def qmin (a b : ℚ) : ℚ :=
  if a ≤ b then a else b

/-- Python `abs` on a rational (kernel-computable). -/
def qabs (a : ℚ) : ℚ :=
  if a < 0 then -a else a

/-- `clamp` from `app/engine/dna.py`: `max(lo, min(hi, val))`. -/
def clamp (val lo hi : ℚ) : ℚ :=
  qmax lo (qmin hi val)

/-- `FATIGUE_MULTIPLIERS` dict with default 0.85 (`get_fatigue`). -/
def getFatigue (bowlerOvers : Nat) : ℚ :=
  match bowlerOvers with
  | 0 => 1
  | 1 => 1
  | 2 => 0.97
  | 3 => 0.92
  | _ => 0.85

/-- Oracle record: one value per `random` call a single delivery can
make.  `margin` stands for `calculate_margin`'s Gaussian sample minus
`(attack + tactical_bonus)`; since the sample is an unbounded Gaussian,
every rational margin is realisable whatever the ratings are.
`dismissal` stands for the `random.choices` draw over the delivery's
`dismissal_weights`. -/
structure BallRand where
  extraRoll : ℚ
  noBallIdx : Nat
  allOutUpgrade : Bool
  jaffaRoll : ℚ
  margin : ℚ
  boundaryRoll : ℚ
  sixRoll : ℚ
  runIdx : Nat
  edgeCatchRoll : ℚ
  edgeDismBehind : Bool
  edgeRunIdx : Nat
  cbRoll : ℚ
  dismissal : String
deriving DecidableEq, Repr

/-- `random.choice` over a literal list, driven by an oracle index. -/
def pickRun (l : List Nat) (idx : Nat) : Nat :=
  l.getD (idx % l.length) 0

/-- `resolve_contact` thresholds on the margin. -/
def resolveContact (margin : ℚ) : Contact :=
  if margin ≥ 25 then .perfect
  else if margin ≥ 15 then .good
  else if margin ≥ 5 then .decent
  else if margin ≥ -5 then .defended
  else if margin ≥ -12 then .beaten
  else if margin ≥ -18 then .edge
  else .clean_beat

/-- `boundary_mod` table in `resolve_runs`. -/
def boundaryMod : Approach → ℚ
  | .survive => -0.18
  | .rotate => 0
  | .push => 0.10
  | .all_out => 0.22

/-- `six_mod` table in `resolve_runs`. -/
def sixMod : Approach → ℚ
  | .survive => -0.10
  | .rotate => 0
  | .push => 0.05
  | .all_out => 0.15

/-- `resolve_runs` (lines 424-465): `(runs, is_boundary, is_six)` for
the four batting contacts. -/
def resolveRuns (contact : Contact) (power : Nat) (approach : Approach)
    (r : BallRand) : Nat × Bool × Bool :=
  let bmod := boundaryMod approach
  let smod := sixMod approach
  match contact with
  | .perfect =>
      let six_chance := clamp ((power : ℚ) / 160 + smod) 0.05 0.75
      if r.sixRoll < six_chance then (6, true, true) else (4, true, false)
  | .good =>
      let boundary_chance := clamp (0.55 + (power : ℚ) / 400 + bmod) 0.20 0.90
      if r.boundaryRoll < boundary_chance then
        let six_chance := clamp ((power : ℚ) / 250 + smod) 0.02 0.50
        if r.sixRoll < six_chance then (6, true, true) else (4, true, false)
      else if approach = .push ∨ approach = .all_out then
        (pickRun [2, 2, 3, 3] r.runIdx, false, false)
      else
        (pickRun [2, 2, 3] r.runIdx, false, false)
  | .decent =>
      let boundary_chance :=
        clamp (0.08 + (power : ℚ) / 800 + qmax 0 (bmod * 0.5)) 0.02 0.25
      if r.boundaryRoll < boundary_chance then (4, true, false)
      else if approach = .push ∨ approach = .all_out then
        (pickRun [1, 1, 2, 2, 2, 3] r.runIdx, false, false)
      else if approach = .survive then
        (pickRun [0, 1, 1, 1, 1] r.runIdx, false, false)
      else
        (pickRun [1, 1, 1, 2, 2] r.runIdx, false, false)
  | .defended =>
      if approach = .push ∨ approach = .all_out then
        (pickRun [0, 0, 1, 1, 1, 1] r.runIdx, false, false)
      else if approach = .survive then
        (pickRun [0, 0, 0, 0, 1] r.runIdx, false, false)
      else
        (pickRun [0, 0, 0, 1, 1, 1] r.runIdx, false, false)
  | _ => (0, false, false)

/-- `resolve_edge` (lines 468-478): `(is_wicket, dismissal, runs)` with
the default `catch_modifier = 0.0` used by `_simulate_ball_v2`. -/
def resolveEdge (carry : ℚ) (r : BallRand) : Bool × String × Nat :=
  let catch_chance := qmax 0.05 (qmin 0.50 (0.25 * (carry / 100)))
  if r.edgeCatchRoll < catch_chance then
    (true, if r.edgeDismBehind then "caught_behind" else "caught", 0)
  else
    (false, "", pickRun [0, 0, 0, 1] r.edgeRunIdx)

/-- `resolve_clean_beat` (lines 481-489): `(is_wicket, dismissal)`. -/
def resolveCleanBeat (margin : ℚ) (r : BallRand) : Bool × String :=
  let wicket_chance := qmin 0.95 (0.55 + (qabs margin - 18) * 0.025)
  if r.cbRoll < wicket_chance then (true, r.dismissal) else (false, "")

/-- `BatterInnings` (per-batter record). -/
structure BatterRec where
  pid : Nat
  runs : Nat
  balls : Nat
  fours : Nat
  sixes : Nat
  is_out : Bool
  dismissal : String
deriving DecidableEq, Repr

/-- Fresh `BatterInnings`. -/
def newBatterRec (pid : Nat) : BatterRec :=
  ⟨pid, 0, 0, 0, 0, false, ""⟩

/-- `BowlerSpell` (per-bowler record). -/
structure BowlerSpell where
  pid : Nat
  overs : Nat
  balls : Nat
  runs : Nat
  wickets : Nat
  wides : Nat
  no_balls : Nat
deriving DecidableEq, Repr

/-- Fresh `BowlerSpell`. -/
def newSpell (pid : Nat) : BowlerSpell :=
  ⟨pid, 0, 0, 0, 0, 0, 0⟩

/-- `InningsState` (lines 127-163), restricted to the fields the engine
reads or writes.  The `batter_states` / `bowler_states` status records
(settled, on-fire, tired, confidence) are not modelled: in the v2
engine they never feed back into any computation.  Dicts keyed by
player id become association lists. -/
structure Innings where
  batting_team : List MPlayer
  bowling_team : List MPlayer
  total_runs : Nat
  wickets : Nat
  overs : Nat
  balls : Nat
  target : Option Nat
  batter_innings : List BatterRec
  bowler_spells : List BowlerSpell
  striker_id : Nat
  non_striker_id : Nat
  current_bowler_id : Option Nat
  last_bowler_id : Option Nat
  batting_order : List Nat
  next_batter_index : Nat
  this_over : List BallOutcome
  extras : Nat
  balls_faced : List (Nat × Nat)
  bowler_overs_count : List (Nat × Nat)
  partnership_runs : Nat
  pitchCarry : ℚ
  is_second_innings : Bool
deriving DecidableEq, Repr

/-- `dict.get(key, 0)` on an id-keyed counter. -/
def getCount (l : List (Nat × Nat)) (k : Nat) : Nat :=
  ((l.find? (fun e => e.1 == k)).map (·.2)).getD 0

/-- `dict[key] = v` on an id-keyed counter. -/
def setCount (l : List (Nat × Nat)) (k v : Nat) : List (Nat × Nat) :=
  if l.any (fun e => e.1 == k) then
    l.map (fun e => if e.1 == k then (k, v) else e)
  else
    l ++ [(k, v)]

/-- Update the record of batter `k` in place. -/
def updateBatter (l : List BatterRec) (k : Nat) (f : BatterRec → BatterRec) :
    List BatterRec :=
  l.map (fun b => if b.pid == k then f b else b)

/-- `dict[key] = record` for a batter record. -/
def putBatter (l : List BatterRec) (b : BatterRec) : List BatterRec :=
  if l.any (fun x => x.pid == b.pid) then
    l.map (fun x => if x.pid == b.pid then b else x)
  else
    l ++ [b]

/-- Update the spell of bowler `k` in place. -/
def updateSpell (l : List BowlerSpell) (k : Nat)
    (f : BowlerSpell → BowlerSpell) : List BowlerSpell :=
  l.map (fun sp => if sp.pid == k then f sp else sp)

/-- Ensure a spell record exists (`if bowler.id not in innings.bowler_spells`). -/
def ensureSpell (l : List BowlerSpell) (k : Nat) : List BowlerSpell :=
  if l.any (fun sp => sp.pid == k) then l else l ++ [newSpell k]

/-- `next(p for p in team if p.id == pid)`. -/
def findPlayer (l : List MPlayer) (pid : Nat) : MPlayer :=
  (l.find? (fun p => p.pid == pid)).getD defaultPlayer

/-- `is_innings_complete` property (lines 186-194).  Note the Python
truthiness test `if self.target and ...`: a target of `0` counts as
unset. -/
def Innings.isComplete (inn : Innings) : Bool :=
  if inn.wickets ≥ 10 then true
  else if inn.overs ≥ 20 then true
  else
    match inn.target with
    | some t => if t ≠ 0 ∧ inn.total_runs ≥ t then true else false
    | none => false

/-- `setup_innings` (lines 638-671). -/
def setupInnings (batting bowling : List MPlayer) (target : Option Nat)
    (pitchCarry : ℚ) (isSecond : Bool) : Innings :=
  let opener1 := ((batting.get? 0).map (·.pid)).getD 0
  let opener2 := ((batting.get? 1).map (·.pid)).getD 0
  { batting_team := batting
    bowling_team := bowling
    total_runs := 0
    wickets := 0
    overs := 0
    balls := 0
    target := target
    batter_innings := [newBatterRec opener1, newBatterRec opener2]
    bowler_spells := []
    striker_id := opener1
    non_striker_id := opener2
    current_bowler_id := none
    last_bowler_id := none
    batting_order := batting.map (·.pid)
    next_batter_index := 2
    this_over := []
    extras := 0
    balls_faced := [(opener1, 0), (opener2, 0)]
    bowler_overs_count := []
    partnership_runs := 0
    pitchCarry := pitchCarry
    is_second_innings := isSecond }

/-- `map_aggression` (lines 515-529): `attack` upgrades to `all_out` in
death overs, on a required rate above 12, or on the 20 % random
upgrade (the `upgrade` oracle boolean). -/
def mapAggression (a : Aggression) (inn : Innings) (upgrade : Bool) :
    Approach :=
  match a with
  | .attack =>
      if inn.overs ≥ 18 then .all_out
      else
        let chase : Bool :=
          match inn.target with
          | some t =>
              let ballsLeft : Int := 120 - ((inn.overs * 6 + inn.balls : Nat) : Int)
              decide (ballsLeft > 0) &&
                decide (((t : ℚ) - (inn.total_runs : ℚ)) / (ballsLeft : ℚ) * 6 > 12)
          | none => false
        if chase then .all_out
        else if upgrade then .all_out
        else .push
  | .defend => .survive
  | .balanced => .rotate

/-- `_simulate_ball_v2` (lines 673-796) downstream of the margin:
jaffa check, then contact resolution.  The rating pipeline is absorbed
into `r.margin` (see the section comment). -/
def simulateBallV2 (batter : MPlayer) (inn : Innings) (approach : Approach)
    (r : BallRand) : BallOutcome :=
  let bf := getCount inn.balls_faced batter.pid
  let jaffa_rate : ℚ := 0.005 + ((bf - 20 : Nat) : ℚ) * 0.0028
  if r.jaffaRoll < jaffa_rate then
    { emptyOutcome with
      is_wicket := true
      contact_quality := "clean_beat"
      dismissal_type := r.dismissal }
  else
    let contact := resolveContact r.margin
    let base := { emptyOutcome with contact_quality := contact.str }
    match contact with
    | .beaten => base
    | .edge =>
        let e := resolveEdge inn.pitchCarry r
        { base with is_wicket := e.1, dismissal_type := e.2.1, runs := e.2.2 }
    | .clean_beat =>
        let c := resolveCleanBeat r.margin r
        { base with is_wicket := c.1, dismissal_type := c.2, runs := 0 }
    | c =>
        let res := resolveRuns c batter.effPower approach r
        { base with runs := res.1, is_boundary := res.2.1, is_six := res.2.2 }

/-- No-ball batter-run distribution values (`random.choices([0,1,2,4,6],
weights=[30,30,10,20,10])`); the weighted draw is the oracle index. -/
def noBallRunsChoices : List Nat := [0, 1, 2, 4, 6]

/-- `_simulate_ball` (lines 810-849): wide / no-ball gate, then the v2
pipeline with the aggression mapped to an approach. -/
def simulateBall (batter bowler : MPlayer) (inn : Innings)
    (aggr : Aggression) (r : BallRand) : BallOutcome :=
  let bowlerOvers := getCount inn.bowler_overs_count bowler.pid
  let fatigue := getFatigue bowlerOvers
  let effCtrl : ℚ :=
    (match bowler.dnaControl with
     | some c => c
     | none => ((max 30 bowler.bowling : Nat) : ℚ)) * fatigue
  let wide_chance := qmax 0.015 (0.06 - effCtrl * 0.0004)
  if r.extraRoll < wide_chance then
    { emptyOutcome with runs := 1, is_wide := true }
  else if r.extraRoll < wide_chance + 0.008 then
    let base := noBallRunsChoices.getD (r.noBallIdx % noBallRunsChoices.length) 0
    { emptyOutcome with
      runs := base + 1
      is_no_ball := true
      is_boundary := decide (base ≥ 4)
      is_six := base == 6 }
  else
    simulateBallV2 batter inn (mapAggression aggr inn r.allOutUpgrade) r

/-- `select_bowler` (lines 851-881): candidates are bowlers and
all-rounders, minus those with 4 completed overs, minus last over's
bowler; the fallbacks relax those constraints in order.  The weighted
`random.choices` pick becomes the `pickIdx` oracle (all weights are
positive, so every candidate is reachable). -/
def selectBowler (inn : Innings) (pickIdx : Nat) : MPlayer :=
  let bowlers := inn.bowling_team.filter
    (fun p => p.role == PlayerRole.bowler || p.role == PlayerRole.all_rounder)
  let avail1 := bowlers.filter (fun b =>
    decide (getCount inn.bowler_overs_count b.pid < 4) &&
    (some b.pid != inn.last_bowler_id))
  let avail2 :=
    if avail1.isEmpty then
      bowlers.filter (fun b => some b.pid != inn.last_bowler_id)
    else avail1
  let avail3 := if avail2.isEmpty then bowlers else avail2
  let avail4 := if avail3.isEmpty then inn.bowling_team else avail3
  avail4.getD (pickIdx % avail4.length) defaultPlayer

/-- Legal-delivery bookkeeping of `simulate_over` (lines 913-934):
innings balls, the striker's record, and the striker's jaffa counter. -/
def recordLegalOver (striker : MPlayer) (outcome : BallOutcome)
    (inn : Innings) : Innings :=
  { inn with
    balls := inn.balls + 1
    batter_innings := updateBatter inn.batter_innings striker.pid
      (fun b =>
        { b with
          balls := b.balls + 1
          runs := b.runs + outcome.runs
          fours := b.fours +
            (if outcome.is_boundary ∧ outcome.is_six = false then 1 else 0)
          sixes := b.sixes + (if outcome.is_six then 1 else 0) })
    balls_faced := setCount inn.balls_faced striker.pid
      (getCount inn.balls_faced striker.pid + 1) }

/-- Spell / extras / totals bookkeeping of `simulate_over`
(lines 945-960). -/
def recordSpellTotalsOver (bowler : MPlayer) (outcome : BallOutcome)
    (inn : Innings) : Innings :=
  { inn with
    bowler_spells := updateSpell inn.bowler_spells bowler.pid (fun sp =>
      if outcome.is_wide then
        { sp with wides := sp.wides + 1, runs := sp.runs + 1 }
      else if outcome.is_no_ball then
        { sp with no_balls := sp.no_balls + 1, runs := sp.runs + outcome.runs }
      else
        { sp with runs := sp.runs + outcome.runs })
    extras := inn.extras +
      (if outcome.is_wide || outcome.is_no_ball then 1 else 0)
    total_runs := inn.total_runs + outcome.runs
    partnership_runs := inn.partnership_runs + outcome.runs }

/-- Wicket bookkeeping of `simulate_over` (lines 969-990): count the
wicket, mark the striker out, credit the bowler, reset the partnership,
bring in the next batter if one remains. -/
def recordWicketOver (bowler : MPlayer) (outcome : BallOutcome)
    (inn : Innings) : Innings :=
  let inn2 : Innings :=
    { inn with
      wickets := inn.wickets + 1
      batter_innings := updateBatter inn.batter_innings inn.striker_id
        (fun b =>
          { b with is_out := true, dismissal := outcome.dismissal_type })
      bowler_spells := updateSpell inn.bowler_spells bowler.pid
        (fun sp => { sp with wickets := sp.wickets + 1 })
      partnership_runs := 0 }
  match inn2.batting_order.get? inn2.next_batter_index with
  | some nb =>
      { inn2 with
        striker_id := nb
        batter_innings := putBatter inn2.batter_innings (newBatterRec nb)
        balls_faced := setCount inn2.balls_faced nb 0
        next_batter_index := inn2.next_batter_index + 1 }
  | none => inn2

/-- Strike rotation (striker and non-striker swap). -/
def rotateStrike (inn : Innings) : Innings :=
  { inn with striker_id := inn.non_striker_id,
             non_striker_id := inn.striker_id }

/-- End-of-over bookkeeping of `simulate_over` (lines 997-1013). -/
def overEnd (bowler : MPlayer) (inn : Innings) : Innings :=
  rotateStrike
    { inn with
      overs := inn.overs + 1
      balls := 0
      bowler_spells := updateSpell inn.bowler_spells bowler.pid
        (fun sp => { sp with overs := sp.overs + 1, balls := 0 })
      last_bowler_id := some bowler.pid
      current_bowler_id := none
      bowler_overs_count := setCount inn.bowler_overs_count bowler.pid
        (getCount inn.bowler_overs_count bowler.pid + 1) }

/-- One delivery of the `simulate_over` loop body (lines 906-994):
simulate the ball, apply the max-3-wickets-per-over demotion (lines
963-968; the demotion mutates the outcome after it was appended, so
the demoted outcome is what `this_over` and the caller see — a wicket
outcome always carries 0 runs, so the run-accounting reads made before
the mutation are unaffected), then perform all the bookkeeping.
Returns the updated innings, the updated `balls_bowled` counter and
the updated `wickets_this_over` counter. -/
def storedOutcome (bowler : MPlayer) (aggr : Aggression) (r : BallRand)
    (wicketsThisOver : Nat) (inn : Innings) : BallOutcome :=
  let striker := findPlayer inn.batting_team inn.striker_id
  let outcome := simulateBall striker bowler inn aggr r
  if outcome.is_wicket && decide (wicketsThisOver ≥ 3) then
    { outcome with is_wicket := false, runs := 0, dismissal_type := "" }
  else outcome

def overBallStep (bowler : MPlayer) (aggr : Aggression) (r : BallRand)
    (ballsBowled wicketsThisOver : Nat) (inn : Innings) :
    Innings × Nat × Nat :=
  let striker := findPlayer inn.batting_team inn.striker_id
  let outcome := simulateBall striker bowler inn aggr r
  let demoted : Bool := outcome.is_wicket && decide (wicketsThisOver ≥ 3)
  let stored : BallOutcome := storedOutcome bowler aggr r wicketsThisOver inn
  let legal : Bool := !outcome.is_wide && !outcome.is_no_ball
  let inn : Innings := { inn with this_over := inn.this_over ++ [stored] }
  let ballsBowled2 := if legal then ballsBowled + 1 else ballsBowled
  let inn : Innings :=
    if legal then recordLegalOver striker outcome inn else inn
  let inn : Innings := recordSpellTotalsOver bowler outcome inn
  let takeWicket : Bool := outcome.is_wicket && !demoted
  let inn : Innings :=
    if takeWicket then recordWicketOver bowler outcome inn else inn
  let wto2 := if takeWicket then wicketsThisOver + 1 else wicketsThisOver
  let inn : Innings :=
    if !stored.is_wicket && decide (stored.runs % 2 = 1) then
      rotateStrike inn
    else inn
  (inn, ballsBowled2, wto2)

/-- The loop of `simulate_over` (lines 905-1016).  One `BallRand` is
consumed per delivery; the recursion mirrors
`while balls_bowled < 6 and not innings.is_innings_complete`, with the
end-of-over block executed (and the loop broken) once 6 legal balls
are in. -/
def simulateOverLoop (bowler : MPlayer) (aggr : Aggression) :
    List BallRand → Nat → Nat → Innings → Innings
  | [], _, _, inn => inn
  | r :: rs, ballsBowled, wicketsThisOver, inn =>
    if ballsBowled < 6 ∧ inn.isComplete = false then
      let s := overBallStep bowler aggr r ballsBowled wicketsThisOver inn
      if s.1.balls ≥ 6 then overEnd bowler s.1
      else simulateOverLoop bowler aggr rs s.2.1 s.2.2 s.1
    else inn

/-- `simulate_over` (lines 883-1016): pick (or keep) the bowler, ensure
a spell record, reset `this_over`, then run the loop.  A finite oracle
list bounds the number of deliveries, matching any finite execution. -/
def simulateOver (inn : Innings) (selIdx : Nat) (aggr : Aggression)
    (rands : List BallRand) : Innings :=
  let bowler :=
    match inn.current_bowler_id with
    | some bid => findPlayer inn.bowling_team bid
    | none => selectBowler inn selIdx
  let inn := { inn with current_bowler_id := some bowler.pid }
  let inn := { inn with bowler_spells := ensureSpell inn.bowler_spells bowler.pid }
  let inn := { inn with this_over := [] }
  simulateOverLoop bowler aggr rands 0 0 inn

/-- Legal-delivery bookkeeping of `play_ball` (`app/api/match.py`
lines 653-666): unlike `simulate_over`, the interactive path never
updates `innings.balls_faced`. -/
def recordLegalApi (striker : MPlayer) (outcome : BallOutcome)
    (inn : Innings) : Innings :=
  { inn with
    balls := inn.balls + 1
    batter_innings := updateBatter inn.batter_innings striker.pid
      (fun b =>
        { b with
          balls := b.balls + 1
          runs := b.runs + outcome.runs
          fours := b.fours +
            (if outcome.is_boundary ∧ outcome.is_six = false then 1 else 0)
          sixes := b.sixes + (if outcome.is_six then 1 else 0) }) }

/-- Spell / extras / totals bookkeeping of `play_ball` (lines 683-697):
the spell's `balls` counter is incremented per legal delivery (which
`simulate_over` does not do), and `partnership_runs` is not updated. -/
def recordSpellTotalsApi (bowlerId : Nat) (outcome : BallOutcome)
    (inn : Innings) : Innings :=
  { inn with
    bowler_spells := updateSpell inn.bowler_spells bowlerId (fun sp =>
      if outcome.is_wide then
        { sp with wides := sp.wides + 1, runs := sp.runs + 1 }
      else if outcome.is_no_ball then
        { sp with no_balls := sp.no_balls + 1, runs := sp.runs + outcome.runs }
      else
        { sp with runs := sp.runs + outcome.runs, balls := sp.balls + 1 })
    extras := inn.extras +
      (if outcome.is_wide || outcome.is_no_ball then 1 else 0)
    total_runs := inn.total_runs + outcome.runs }

/-- Wicket bookkeeping of `play_ball` (lines 699-717) — unconditional:
the interactive path has no wickets-per-over cap, and it does not seed
the new batter's `balls_faced` counter. -/
def recordWicketApi (bowlerId : Nat) (outcome : BallOutcome)
    (inn : Innings) : Innings :=
  let inn2 : Innings :=
    { inn with
      wickets := inn.wickets + 1
      batter_innings := updateBatter inn.batter_innings inn.striker_id
        (fun b =>
          { b with is_out := true, dismissal := outcome.dismissal_type })
      bowler_spells := updateSpell inn.bowler_spells bowlerId
        (fun sp => { sp with wickets := sp.wickets + 1 }) }
  match inn2.batting_order.get? inn2.next_batter_index with
  | some nb =>
      { inn2 with
        striker_id := nb
        batter_innings := putBatter inn2.batter_innings (newBatterRec nb)
        next_batter_index := inn2.next_batter_index + 1 }
  | none => inn2

/-- End-of-over bookkeeping of `play_ball` (lines 719-737): unlike
`simulate_over`, `bowler_overs_count` is never incremented. -/
def overEndApi (bowlerId : Nat) (inn : Innings) : Innings :=
  rotateStrike
    { inn with
      overs := inn.overs + 1
      balls := 0
      bowler_spells := updateSpell inn.bowler_spells bowlerId
        (fun sp => { sp with overs := sp.overs + 1, balls := 0 })
      last_bowler_id := some bowlerId
      current_bowler_id := none }

/-- One interactive delivery — the state-update block of `play_ball`
(`app/api/match.py` lines 625-753).  Differences from `simulate_over`
translated as-is: the spell's `balls` counter is incremented per legal
delivery, `innings.balls_faced`, `bowler_overs_count` and
`partnership_runs` are never updated, and there is **no**
wickets-per-over cap.  `none` models the HTTP error raised when the
user must pick a bowler at the start of an over.  The caller only
invokes this on a live (incomplete) innings. -/
def playBallBody (inn : Innings) (aggr : Aggression) (r : BallRand) :
    Innings :=
  let bowlerId := inn.current_bowler_id.getD 0
  let striker := findPlayer inn.batting_team inn.striker_id
  let bowler := findPlayer inn.bowling_team bowlerId
  let outcome := simulateBall striker bowler inn aggr r
  let inn : Innings := { inn with this_over := inn.this_over ++ [outcome] }
  let legal : Bool := !outcome.is_wide && !outcome.is_no_ball
  let inn : Innings :=
    if legal then recordLegalApi striker outcome inn else inn
  let inn : Innings :=
    { inn with bowler_spells := ensureSpell inn.bowler_spells bowlerId }
  let inn : Innings := recordSpellTotalsApi bowlerId outcome inn
  let inn : Innings :=
    if outcome.is_wicket then recordWicketApi bowlerId outcome inn
    else if outcome.runs % 2 = 1 then rotateStrike inn
    else inn
  let inn : Innings :=
    if inn.balls ≥ 6 then overEndApi bowlerId inn else inn
  inn

def playBall (inn : Innings) (isUserBowling : Bool) (selIdx : Nat)
    (aggr : Aggression) (r : BallRand) : Option Innings :=
  let gate : Option Innings :=
    if inn.balls = 0 ∧ inn.current_bowler_id = none then
      if isUserBowling then none
      else
        let b := selectBowler inn selIdx
        some { inn with current_bowler_id := some b.pid, this_over := [] }
    else some inn
  match gate with
  | none => none
  | some inn => some (playBallBody inn aggr r)

/-- Match result variants (`simulate_match` lines 1054-1066 and
`_finalize_match_interactive`): the second-batting side wins by
wickets, the first-batting side wins by runs, or a tie. -/
inductive MatchResult where
  | secondBattingBy (wkts : Nat)
  | firstBattingBy (runs : Nat)
  | tie
deriving DecidableEq, Repr

/-- The winner determination of `simulate_match` on the completed
second innings, with `target = innings1.total_runs + 1`. -/
def determineResult (target : Nat) (inn2 : Innings) : MatchResult :=
  if inn2.total_runs ≥ target then
    .secondBattingBy (10 - inn2.wickets)
  else if inn2.total_runs < target - 1 then
    .firstBattingBy ((target - 1) - inn2.total_runs)
  else
    .tie

/-! ## Player generation — `app/generators/player_generator.py` and
`Player.overall_rating` (`app/models/player.py` lines 118-129). -/

/-- The player fields `overall_rating` and `_ensure_minimum_ovr` read
and write. -/
structure GenPlayer where
  role : PlayerRole
  batting : Nat
  bowling : Nat
  fielding : Nat
  fitness : Nat
deriving DecidableEq, Repr

/-- `overall_rating`: `int(batting*0.7 + fielding*0.2 + fitness*0.1)`
and its role variants.  For non-negative attributes the Python float
truncation is the floor of the exact weighted sum, i.e. division by 10
of the integer-weighted sum. -/
def overallRating (p : GenPlayer) : Nat :=
  match p.role with
  | .batsman => (7 * p.batting + 2 * p.fielding + p.fitness) / 10
  | .bowler => (7 * p.bowling + 2 * p.fielding + p.fitness) / 10
  | .all_rounder => (4 * p.batting + 4 * p.bowling + p.fielding + p.fitness) / 10
  | .wicket_keeper => (5 * p.batting + 4 * p.fielding + p.fitness) / 10

/-- One iteration of the `while` body of `_ensure_minimum_ovr`
(`player_generator.py` lines 260-281), with `min_ovr = 55`:
`diff = 55 - overall_rating + 2`, then boost the role's primary
attribute(s), capped at 100. -/
def boostOnce (p : GenPlayer) : GenPlayer :=
  let diff := 55 - overallRating p + 2
  match p.role with
  | .batsman => { p with batting := min 100 (p.batting + diff) }
  | .bowler => { p with bowling := min 100 (p.bowling + diff) }
  | .all_rounder =>
      let boost := diff / 2 + 1
      { p with batting := min 100 (p.batting + boost),
               bowling := min 100 (p.bowling + boost) }
  | .wicket_keeper =>
      let boost_bat := diff * 5 / 9 + 1
      let boost_field := diff * 4 / 9 + 1
      { p with batting := min 100 (p.batting + boost_bat),
               fielding := min 100 (p.fielding + boost_field) }

/-- Fuel-indexed unfolding of the `while player.overall_rating < 55`
loop. -/
def ensureMinimumOvrAux : Nat → GenPlayer → GenPlayer
  | 0, p => p
  | fuel + 1, p =>
      if overallRating p < 55 then ensureMinimumOvrAux fuel (boostOnce p)
      else p

/-- `_ensure_minimum_ovr` with fuel 200; the termination theorem shows
the loop always exits with rating ≥ 55 well within this budget for
attribute draws in 0..100, so the fuel never binds. -/
def ensureMinimumOvr (p : GenPlayer) : GenPlayer :=
  ensureMinimumOvrAux 200 p

/-! ## Season engine — `generate_league_fixtures`
(`app/engine/season_engine.py` lines 49-114).

`random.shuffle(matchups)` becomes a parameter: the theorems quantify
over any permutation of the built matchup list. -/

/-- The team fields fixture generation reads. -/
structure STeam where
  tid : Nat
  home_ground : String
deriving DecidableEq, Repr

/-- An ordered matchup `(team1, team2)`. -/
abbrev Matchup := STeam × STeam

/-- The matchup enumeration: for each `i < j`, append `(ti, tj)` and
`(tj, ti)` (each pair plays home and away). -/
def buildMatchups : List STeam → List Matchup
  | [] => []
  | t :: ts => (ts.map (fun u => [(t, u), (u, t)])).flatten ++ buildMatchups ts

/-- The generated fixture fields the claims reference. -/
structure SFixture where
  match_number : Nat
  team1 : Nat
  team2 : Nat
  venue : String
deriving DecidableEq, Repr

/-- The linear scan for the matchup maximising the minimum gap since
each team's last scheduled appearance (strict improvement keeps the
first maximiser, as the Python `>` comparison does). -/
def pickBestAux (matchNumber : Int) (last : Nat → Int) :
    List Matchup → Option Matchup → Int → Option Matchup
  | [], best, _ => best
  | m :: rest, best, bestScore =>
      let gap1 := matchNumber - last m.1.tid
      let gap2 := matchNumber - last m.2.tid
      let minGap := min gap1 gap2
      if minGap > bestScore then
        pickBestAux matchNumber last rest (some m) minGap
      else
        pickBestAux matchNumber last rest best bestScore

/-- `best_matchup` selection with initial `best_score = -1`. -/
def pickBest (matchNumber : Int) (last : Nat → Int) (l : List Matchup) :
    Option Matchup :=
  pickBestAux matchNumber last l none (-1)

/-- The `while remaining_matchups` scheduling loop: pick the best
matchup, emit a fixture (venue is team1's home ground), record both
teams' last-match number, remove the matchup, increment the match
number.  Fuel equals the number of remaining matchups. -/
def scheduleAux : Nat → Nat → (Nat → Int) → List Matchup → List SFixture
  | 0, _, _, _ => []
  | fuel + 1, matchNumber, last, remaining =>
      match pickBest (matchNumber : Int) last remaining with
      | none => []
      | some m =>
          let fx : SFixture := ⟨matchNumber, m.1.tid, m.2.tid, m.1.home_ground⟩
          let last2 := fun tid =>
            if tid = m.2.tid then (matchNumber : Int)
            else if tid = m.1.tid then (matchNumber : Int)
            else last tid
          fx :: scheduleAux fuel (matchNumber + 1) last2 (remaining.erase m)

/-- `generate_league_fixtures` applied to an (arbitrary) shuffle of the
matchups; `team_last_match` starts at `-3` for every team and match
numbers start at 1. -/
def generateLeagueFixtures (shuffled : List Matchup) : List SFixture :=
  scheduleAux shuffled.length 1 (fun _ => -3) shuffled

/-! ## Team season stats — `app/models/career.py` lines 140-175. -/

/-- `TeamSeasonStats` columns the standings read. -/
structure TeamSeasonStats where
  matches_played : Nat
  wins : Nat
  losses : Nat
  no_results : Nat
  points : Nat
  runs_scored : Nat
  overs_faced : ℚ
  runs_conceded : Nat
  overs_bowled : ℚ
deriving DecidableEq, Repr

/-- Python `round(x, 3)` over exact rationals: round to the nearest
thousandth, computed as `⌊x·1000 + 1/2⌋ / 1000` (ties resolve upward
where CPython's float rounding is half-to-even; the two agree
everywhere except exact half-thousandth ties). -/
def roundTo3 (x : ℚ) : ℚ :=
  ((Rat.floor (x * 1000 + 1 / 2) : ℤ) : ℚ) / 1000

/-- `net_run_rate` property (lines 164-171): 0.0 if either overs total
is zero, else the rounded rate difference. -/
def netRunRate (s : TeamSeasonStats) : ℚ :=
  if s.overs_faced = 0 ∨ s.overs_bowled = 0 then 0
  else
    let scoring_rate := (s.runs_scored : ℚ) / s.overs_faced
    let conceding_rate := (s.runs_conceded : ℚ) / s.overs_bowled
    roundTo3 (scoring_rate - conceding_rate)

/-! ## Derived quantities and well-formedness used by the claims -/

/-- Sum of the recorded batters' runs (the scorecard total). -/
def sumBatterRuns (inn : Innings) : Nat :=
  (inn.batter_innings.map (·.runs)).sum

/-- Sum of the recorded batters' balls faced — the number of legal
deliveries recorded on the scorecard. -/
def sumBatterBalls (inn : Innings) : Nat :=
  (inn.batter_innings.map (·.balls)).sum

/-- Number of wicket outcomes in a ball list. -/
def wicketCount (outs : List BallOutcome) : Nat :=
  (outs.filter (·.is_wicket)).length

/-- Batter runs carried by no-balls in a ball list: each no-ball
outcome's `runs` is the batter's runs plus the 1-run penalty. -/
def noBallOverage (outs : List BallOutcome) : Nat :=
  ((outs.filter (·.is_no_ball)).map (fun o => o.runs - 1)).sum

/-- The no-ball overage of the most recently recorded ball. -/
def lastOutcomeOverage (inn : Innings) : Nat :=
  match inn.this_over.getLast? with
  | some o => if o.is_no_ball then o.runs - 1 else 0
  | none => 0

/-- Well-formedness of an innings, as maintained by the engine:
batter records carry distinct player ids, both batters at the crease
have records and are members of the batting team, the batting order is
duplicate-free and drawn from the batting team, and batters still to
come (the batting order from `next_batter_index` on) have no record
yet. -/
@[reducible] def InningsWF (inn : Innings) : Prop :=
  (inn.batter_innings.map (·.pid)).Nodup ∧
  inn.striker_id ∈ inn.batter_innings.map (·.pid) ∧
  inn.non_striker_id ∈ inn.batter_innings.map (·.pid) ∧
  inn.batting_order.Nodup ∧
  (∀ nb ∈ inn.batting_order.drop inn.next_batter_index,
     nb ∉ inn.batter_innings.map (·.pid)) ∧
  inn.striker_id ∈ inn.batting_team.map (·.pid) ∧
  inn.non_striker_id ∈ inn.batting_team.map (·.pid) ∧
  (∀ nb ∈ inn.batting_order, nb ∈ inn.batting_team.map (·.pid))

/-! ## Concrete states used by counterexamples and witnesses -/

/-- A generic specialist batter. -/
def cricBatter (i : Nat) : MPlayer :=
  ⟨i, PlayerRole.batsman, 20, 50, none, some 50⟩

/-- A generic specialist bowler (DNA control 50). -/
def cricBowler (i : Nat) : MPlayer :=
  ⟨i, PlayerRole.bowler, 50, 30, some 50, none⟩

/-- A six-batter order, enough for several wickets in one over. -/
def exBatting : List MPlayer :=
  [cricBatter 1, cricBatter 2, cricBatter 3,
   cricBatter 4, cricBatter 5, cricBatter 6]

/-- A fresh innings on a balanced pitch (carry 65) with bowler 11
already selected for the over. -/
def exInnings : Innings :=
  { setupInnings exBatting [cricBowler 11, cricBowler 12] none 65 false with
    current_bowler_id := some 11 }

/-- Oracle delivering a no-ball with 2 batter runs (3 total): the
extras roll 0.045 falls in the no-ball window `[0.04, 0.048)` for an
effective control of 50, and choice index 2 selects 2 from
`[0, 1, 2, 4, 6]`. -/
def noBallRand : BallRand :=
  ⟨0.045, 2, false, 0.9, 0, 0, 0, 0, 0.9, false, 0, 0.9, "bowled"⟩

/-- Oracle delivering a jaffa wicket: the extras roll avoids the
wide/no-ball window and the jaffa roll 0.001 is under the base jaffa
rate 0.005. -/
def jaffaRand : BallRand :=
  ⟨0.9, 0, false, 0.001, 0, 0, 0, 0, 0.9, false, 0, 0.9, "bowled"⟩

/-- Four interactive deliveries, each a jaffa wicket. -/
def c5Chain : Option Innings :=
  (((playBall exInnings false 0 Aggression.balanced jaffaRand).bind
    (fun i => playBall i false 0 Aggression.balanced jaffaRand)).bind
    (fun i => playBall i false 0 Aggression.balanced jaffaRand)).bind
    (fun i => playBall i false 0 Aggression.balanced jaffaRand)

/-- The C1 scenario team state: remaining budget 3 000 000 and
16 players bought, so `min_players_needed = 2`. -/
def c1TeamState : TeamAuctionState :=
  ⟨3000000, 16, 0, 0, 0, 0, 0⟩

/-- The C1 scenario bidding state: a player of base price 2 000 000 in
bidding (so `current_bid = 2000000`), no bidder yet. -/
def c1RunState : AuctionRunState :=
  ⟨c1TeamState, 2000000, false, some ⟨false, PlayerRole.batsman⟩⟩

/-- A domestic batsman, as bought throughout the C2 trace. -/
def c2Player : PlayerInfo :=
  ⟨false, PlayerRole.batsman⟩

/-- Buy one player of base price 20 000 000 at the given bid. -/
def c2Purchase (amount : Int) : List AuctionOp :=
  [AuctionOp.startBidding 20000000 c2Player,
   AuctionOp.teamBid amount,
   AuctionOp.finalizePlayer]

/-- Nineteen accepted purchases: 17 at 21 000 000, one at 533 000 000
(all within `max_bid_possible` at the time), and — once the squad holds
18 players and the reserve goes negative — one more at 21 000 000 from
a remaining budget of only 10 000 000. -/
def c2Trace : List AuctionOp :=
  (List.replicate 17 (c2Purchase 21000000)).flatten ++
    c2Purchase 533000000 ++ c2Purchase 21000000

/-- The remaining budget after running a trace from the initial state. -/
def budgetAfter (ops : List AuctionOp) : Option Int :=
  (runOps ops initialRunState).map (fun s => s.team.remaining_budget)

/-- C3 scenario: the excluded team 1 is already the highest bidder and
the only other team has a full 25-player squad. -/
def c3Teams : List TeamEntry :=
  [⟨1, ⟨100000000, 20, 0, 0, 0, 0, 0⟩⟩, ⟨2, ⟨0, 25, 0, 0, 0, 0, 0⟩⟩]

/-- C6 counterexample innings: the only capable bowler (id 7) has
already completed 4 overs and also bowled the last over. -/
def c6Innings : Innings :=
  { setupInnings exBatting [cricBowler 7] none 65 false with
    bowler_overs_count := [(7, 4)], last_bowler_id := some 7 }

/-- C6 witness innings: bowler 7 has 4 completed overs but bowler 8 is
fresh. -/
def c6FreshInnings : Innings :=
  { setupInnings exBatting [cricBowler 7, cricBowler 8] none 65 false with
    bowler_overs_count := [(7, 4)], last_bowler_id := some 7 }

/-- C7 witness innings: second innings at 185/4 chasing 181. -/
def c7Innings : Innings :=
  { exInnings with target := some 181, total_runs := 185, wickets := 4 }

/-- Eight distinct teams for the C9 witness. -/
def c9Teams : List STeam :=
  [⟨1, "g1"⟩, ⟨2, "g2"⟩, ⟨3, "g3"⟩, ⟨4, "g4"⟩,
   ⟨5, "g5"⟩, ⟨6, "g6"⟩, ⟨7, "g7"⟩, ⟨8, "g8"⟩]

/-- The inductive invariant the auction operations preserve: the
composition caps, the (amended) budget bound, budget non-negativity up
to the minimum squad size, and — while the tracked team holds the
highest bid — the facts its bid guard established. -/
def AuctionInv (s : AuctionRunState) : Prop :=
  s.team.overseas_players ≤ 8 ∧
  s.team.total_players ≤ 25 ∧
  -20000000 ≤ s.team.remaining_budget ∧
  (s.team.total_players ≤ 18 → 0 ≤ s.team.remaining_budget) ∧
  (s.bidder_is_team = true →
    s.current_bid ≤ s.team.max_bid_possible ∧
    s.team.total_players < 25 ∧
    (match s.current_player with
     | some p => p.is_overseas = true → s.team.overseas_players < 8
     | none => True))

/-! # Theorems settling the claims -/

/-- C1 (counterexample — the claim is false on the code): the claimed
formula reserves 2 000 000 per missing slot, but
`TeamAuctionState.max_bid_possible` reserves 20 000 000 (2 crore, as
its own docstring says).  For the claim's own scenario — remaining
budget 3 000 000, `min_players_needed = 2` — the code yields
max-bid-possible 0, not the claimed 1 000 000, and the bid of
1 000 000 the claim says is accepted is rejected. -/
theorem c1_max_bid_counterexample :
    TeamAuctionState.max_bid_possible c1TeamState = 0 ∧
    (0 : Int) ≠ 1000000 ∧
    stepOp c1RunState (AuctionOp.teamBid 1000000) = none := by
  refine ⟨by decide, by decide, by decide⟩

/-- C1 (amended): for every `TeamAuctionState`, max-bid-possible equals
remaining-budget minus (min-players-needed − 1) × 20 000 000, floored
at zero; in particular the team with remaining budget 3 000 000 and
min-players-needed 2 has max-bid-possible 0, so a bid of 1 500 000 and
a bid of 1 000 000 on the current player are both rejected. -/
theorem c1_max_bid_amended :
    (∀ s : TeamAuctionState,
       s.max_bid_possible =
         max 0 (s.remaining_budget - (s.min_players_needed - 1) * 20000000)) ∧
    TeamAuctionState.max_bid_possible c1TeamState = 0 ∧
    stepOp c1RunState (AuctionOp.teamBid 1500000) = none ∧
    stepOp c1RunState (AuctionOp.teamBid 1000000) = none := by
  refine ⟨fun s => rfl, by decide, by decide, by decide⟩

/-- C10 (confirmed): reading `net_run_rate` is total: it returns 0
whenever `overs_faced = 0` or `overs_bowled = 0` (so standings computed
before a team has played never divide by zero), and otherwise returns
exactly the scoring-rate difference rounded to 3 decimal places. -/
theorem c10_net_run_rate :
    (∀ s : TeamSeasonStats,
       s.overs_faced = 0 ∨ s.overs_bowled = 0 → netRunRate s = 0) ∧
    (∀ s : TeamSeasonStats, s.overs_faced ≠ 0 → s.overs_bowled ≠ 0 →
       netRunRate s =
         roundTo3 ((s.runs_scored : ℚ) / s.overs_faced -
           (s.runs_conceded : ℚ) / s.overs_bowled)) := by
  constructor
  · intro s h
    unfold netRunRate
    rw [if_pos h]
  · intro s h1 h2
    unfold netRunRate
    rw [if_neg]
    rintro (h | h)
    · exact h1 h
    · exact h2 h

/-- C10 witness: a team that has not yet bowled reads NRR 0; a team
with 320 runs off 20 overs against 300 conceded off 20 reads exactly
1.000. -/
theorem c10_net_run_rate_witness :
    netRunRate ⟨0, 0, 0, 0, 0, 100, 0, 50, 10⟩ = 0 ∧
    netRunRate ⟨1, 1, 0, 0, 2, 320, 20, 300, 20⟩ =
      roundTo3 ((320 : ℚ) / 20 - (300 : ℚ) / 20) := by
  constructor
  · exact c10_net_run_rate.1 ⟨0, 0, 0, 0, 0, 100, 0, 50, 10⟩ (Or.inl rfl)
  · exact c10_net_run_rate.2 ⟨1, 1, 0, 0, 2, 320, 20, 300, 20⟩
      (by norm_num) (by norm_num)

/-- C6 (counterexample — the claim is false on the code): with a
bowling XI whose only bowling-capable player (id 7) has already
completed 4 overs (and bowled the last over), every fallback pool is
empty or excluded, and `select_bowler` selects that same bowler for a
fifth over. -/
theorem c6_four_over_counterexample :
    selectBowler c6Innings 0 = cricBowler 7 ∧
    4 ≤ getCount c6Innings.bowler_overs_count (selectBowler c6Innings 0).pid := by
  refine ⟨by decide, by decide⟩

/-- An element read with `getD` at a wrapped index is in the list when
the list is non-empty. -/
theorem getD_mod_mem {α : Type} (l : List α) (d : α) (i : Nat) (h : l ≠ []) :
    l.getD (i % l.length) d ∈ l := by
  have hl : 0 < l.length := List.length_pos.mpr h
  have hm : i % l.length < l.length := Nat.mod_lt _ hl
  rw [List.getD_eq_getElem?_getD, List.getElem?_eq_getElem hm, Option.getD_some]
  exact List.getElem_mem hm

/-- C6 (amended): `select_bowler` never picks a bowler with 4 completed
overs, or last over's bowler, **while the primary candidate pool —
bowling-capable players under 4 overs who did not bowl the last over —
is non-empty**; when that pool is empty the fallbacks drop both
constraints in order, and (as the counterexample shows) a fifth over by
the same bowler becomes possible. -/
theorem c6_bowler_cap_amended (inn : Innings) (pickIdx : Nat)
    (h : (inn.bowling_team.filter (fun p =>
            p.role == PlayerRole.bowler || p.role == PlayerRole.all_rounder)).filter
          (fun b => decide (getCount inn.bowler_overs_count b.pid < 4) &&
                    (some b.pid != inn.last_bowler_id)) ≠ []) :
    getCount inn.bowler_overs_count (selectBowler inn pickIdx).pid < 4 ∧
    some (selectBowler inn pickIdx).pid ≠ inn.last_bowler_id := by
  have hsel : selectBowler inn pickIdx ∈
      (inn.bowling_team.filter (fun p =>
          p.role == PlayerRole.bowler || p.role == PlayerRole.all_rounder)).filter
        (fun b => decide (getCount inn.bowler_overs_count b.pid < 4) &&
                  (some b.pid != inn.last_bowler_id)) := by
    unfold selectBowler
    rcases hl : (inn.bowling_team.filter (fun p =>
        p.role == PlayerRole.bowler || p.role == PlayerRole.all_rounder)).filter
          (fun b => decide (getCount inn.bowler_overs_count b.pid < 4) &&
                    (some b.pid != inn.last_bowler_id)) with _ | ⟨b, bs⟩
    · exact absurd hl h
    · simp only [hl, List.isEmpty_cons, Bool.false_eq_true, if_false]
      exact getD_mod_mem (b :: bs) defaultPlayer pickIdx (by simp)
  obtain ⟨-, hpred⟩ := List.mem_filter.mp hsel
  simp only [Bool.and_eq_true, decide_eq_true_eq, bne_iff_ne] at hpred
  exact hpred

/-- C6 witness: with fresh bowler 8 alongside exhausted bowler 7, the
primary pool is non-empty and the selected bowler has fewer than 4
completed overs and did not bowl the last over. -/
theorem c6_bowler_cap_amended_witness :
    ((c6FreshInnings.bowling_team.filter (fun p =>
        p.role == PlayerRole.bowler || p.role == PlayerRole.all_rounder)).filter
      (fun b => decide (getCount c6FreshInnings.bowler_overs_count b.pid < 4) &&
                (some b.pid != c6FreshInnings.last_bowler_id)) ≠ []) ∧
    getCount c6FreshInnings.bowler_overs_count (selectBowler c6FreshInnings 0).pid < 4 ∧
    some (selectBowler c6FreshInnings 0).pid ≠ c6FreshInnings.last_bowler_id :=
  ⟨by decide, c6_bowler_cap_amended c6FreshInnings 0 (by decide)⟩

/-- C2 (counterexample — the claim is false on the code): from a fresh
team (budget 900 000 000), nineteen accepted purchases — every bid
passing the user-path and `place_bid` guards at the moment it is
placed — leave the team's `remaining_budget` at −11 000 000.  Once the
squad holds 18 players, `min_players_needed − 1 = −1` makes the
reserve negative, so `max_bid_possible = remaining_budget + 20 000 000`
and the final 21 000 000 bid is accepted against a remaining budget of
only 10 000 000. -/
theorem c2_budget_counterexample :
    budgetAfter c2Trace = some (-11000000) ∧ (-11000000 : Int) < 0 :=
  ⟨by decide, by decide⟩

/-- C2 (amended): after every auction operation (accepted bid or
finalisation), every team's auction state satisfies
`overseas_players ≤ 8`, `total_players ≤ 25` and
`-20 000 000 ≤ remaining_budget`, with `0 ≤ remaining_budget`
guaranteed only while the team holds at most 18 players — once a team
already holds 18 or more, `max_bid_possible` equals
`remaining_budget + 20 000 000` and a finalisation can push the budget
below zero (never below −20 000 000). -/
theorem c2_invariants_amended (s : AuctionRunState) (op : AuctionOp)
    (s2 : AuctionRunState) (hinv : AuctionInv s)
    (hstep : stepOp s op = some s2) :
    AuctionInv s2 ∧
    s2.team.overseas_players ≤ 8 ∧ s2.team.total_players ≤ 25 ∧
    -20000000 ≤ s2.team.remaining_budget ∧
    (s2.team.total_players ≤ 18 → 0 ≤ s2.team.remaining_budget) := by
  suffices h : AuctionInv s2 by
    exact ⟨h, h.1, h.2.1, h.2.2.1, h.2.2.2.1⟩
  obtain ⟨hov, htot, hrem, hrem0, hbid⟩ := hinv
  cases op with
  | startBidding base p =>
      simp only [stepOp] at hstep
      obtain rfl := Option.some.inj hstep
      exact ⟨hov, htot, hrem, hrem0, by simp⟩
  | teamBid amount =>
      rcases hp : s.current_player with _ | p
      · simp [stepOp, hp] at hstep
      · simp only [stepOp, hp] at hstep
        split_ifs at hstep with h1 h2 h3 h4
        obtain rfl := Option.some.inj hstep
        refine ⟨hov, htot, hrem, hrem0, fun _ => ?_⟩
        dsimp only
        refine ⟨by omega, by omega, ?_⟩
        intro hpov
        have hno : ¬ s.team.overseas_players ≥ 8 := fun hb => h2 ⟨hpov, hb⟩
        omega
  | rivalBid amount =>
      simp only [stepOp] at hstep
      split_ifs at hstep with h1
      obtain rfl := Option.some.inj hstep
      exact ⟨hov, htot, hrem, hrem0, by simp⟩
  | finalizePlayer =>
      rcases hp : s.current_player with _ | p
      · simp [stepOp, hp] at hstep
      · simp only [stepOp, hp] at hstep
        by_cases hb : s.bidder_is_team = true
        · rw [if_pos hb] at hstep
          obtain rfl := Option.some.inj hstep
          obtain ⟨hbound, htot25, hovp⟩ := hbid hb
          rw [hp] at hovp
          simp only [TeamAuctionState.max_bid_possible,
            TeamAuctionState.min_players_needed] at hbound
          refine ⟨?_, ?_, ?_, ?_, by simp⟩
          · simp only [applyPurchase]
            cases hpov : p.is_overseas with
            | true =>
                have := hovp hpov
                simp [hpov]
                omega
            | false =>
                simp [hpov]
                omega
          · simp only [applyPurchase]
            omega
          · simp only [applyPurchase]
            omega
          · simp only [applyPurchase]
            intro hle
            omega
        · rw [if_neg hb] at hstep
          obtain rfl := Option.some.inj hstep
          exact ⟨hov, htot, hrem, hrem0, by simp⟩

/-- Every key of `team_valuations` differs from the excluded team:
the source builds the dict only for `team_id != exclude_team_id`. -/
theorem mkValuations_key_ne (teams : List TeamEntry) (e : Nat)
    (vals : Nat → Int) (tv : Nat × Int)
    (hm : tv ∈ mkValuations teams (some e) vals) : tv.1 ≠ e := by
  unfold mkValuations at hm
  obtain ⟨t, ht, heq⟩ := List.mem_map.mp hm
  obtain ⟨-, hpred⟩ := List.mem_filter.mp ht
  have hne : some t.tid ≠ some e := of_decide_eq_true hpred
  subst heq
  intro hc
  dsimp only at hc
  exact hne (by rw [hc])

/-- During `run_competitive_ai_bidding`, the current bidder is only
ever replaced by a key of the valuation table. -/
theorem runCompetitiveAux_bidder_stable (teams : List TeamEntry)
    (player : PlayerInfo) (valuations : List (Nat × Int))
    (accept : Nat → Nat → Bool) (pick : Nat → Nat) (e : Nat)
    (hval : ∀ tv ∈ valuations, tv.1 ≠ e) :
    ∀ fuel passes s, s.current_bidder ≠ some e →
      (runCompetitiveAux teams player valuations accept pick fuel
        passes s).current_bidder ≠ some e := by
  intro fuel
  induction fuel with
  | zero =>
      intro passes s h
      simpa [runCompetitiveAux] using h
  | succ n ih =>
      intro passes s h
      simp only [runCompetitiveAux]
      split_ifs with hp
      · exact h
      · split
        · exact ih (passes + 1) s h
        · next w ws hw =>
            split_ifs with hplace
            · exact ih (passes + 1) s h
            · apply ih 0
              have hall : ∀ x ∈ w :: ws, x ≠ e := by
                intro x hx
                rw [← hw] at hx
                obtain ⟨tv, htv, heq2⟩ := List.mem_map.mp hx
                rw [← heq2]
                exact hval tv (List.mem_of_mem_filter htv)
              have hne := hall _ (getD_mod_mem (w :: ws) w (pick n) (by simp))
              dsimp only
              simp only [ne_eq, Option.some.injEq]
              exact hne

/-- C3 (counterexample — the claim is false on the code): a
`quick_pass_player` run that excludes team 1 while team 1 is already
the highest bidder, against a lone rival with a full squad, ends with
the player sold to the excluded team: `run_competitive_ai_bidding`
drops the excluded team from the valuation table but never clears a
pre-existing highest bid, and `finalize_player` sells to whoever holds
it. -/
theorem c3_excluded_wins_counterexample :
    quickPassSoldTo c3Teams ⟨false, PlayerRole.batsman⟩ (some 1)
      (fun _ => 10000000) (fun _ _ => true) (fun _ => 0)
      ⟨5000000, some 1⟩ = some 1 := by
  decide

/-- C3 (amended): during a competitive AI-only run with
`exclude_team_id` set, the excluded team never places a bid, so the
player can be sold to the excluded team only if that team was already
the highest bidder when the run started.  In particular the
skip-category path, which first calls `start_bidding` (resetting the
bidder), can never sell to the excluded team; `quick_pass_player`
preserves a pre-existing highest bid by the excluded team (see the
counterexample). -/
theorem c3_excluded_never_bids_amended :
    (∀ (teams : List TeamEntry) (player : PlayerInfo) (e : Nat)
       (vals : Nat → Int) (accept : Nat → Nat → Bool) (pick : Nat → Nat)
       (s : BidState), s.current_bidder ≠ some e →
       quickPassSoldTo teams player (some e) vals accept pick s ≠ some e) ∧
    (∀ (teams : List TeamEntry) (player : PlayerInfo) (base : Int) (e : Nat)
       (vals : Nat → Int) (accept : Nat → Nat → Bool) (pick : Nat → Nat),
       skipCategorySoldTo teams player base (some e) vals accept pick ≠
         some e) := by
  have main : ∀ (teams : List TeamEntry) (player : PlayerInfo) (e : Nat)
      (vals : Nat → Int) (accept : Nat → Nat → Bool) (pick : Nat → Nat)
      (s : BidState), s.current_bidder ≠ some e →
      quickPassSoldTo teams player (some e) vals accept pick s ≠ some e := by
    intro teams player e vals accept pick s h
    unfold quickPassSoldTo runCompetitiveAiBidding
    exact runCompetitiveAux_bidder_stable teams player
      (mkValuations teams (some e) vals) accept pick e
      (fun tv htv => mkValuations_key_ne teams e vals tv htv) 100 0 s h
  refine ⟨main, ?_⟩
  intro teams player base e vals accept pick
  exact main teams player e vals accept pick ⟨base, none⟩ (by simp)

/-- C3 witness: with team 3 excluded (and not the current bidder), a
concrete quick-pass run never sells to team 3. -/
theorem c3_excluded_never_bids_amended_witness :
    (some 1 : Option Nat) ≠ some 3 ∧
    quickPassSoldTo c3Teams ⟨false, PlayerRole.batsman⟩ (some 3)
      (fun _ => 10000000) (fun _ _ => true) (fun _ => 0)
      ⟨5000000, some 1⟩ ≠ some 3 :=
  ⟨by decide,
    c3_excluded_never_bids_amended.1 c3Teams ⟨false, PlayerRole.batsman⟩ 3
      (fun _ => 10000000) (fun _ _ => true) (fun _ => 0)
      ⟨5000000, some 1⟩ (by decide)⟩

/-- C2 witness: the invariant holds of the initial state and is
carried across a concrete accepted operation. -/
theorem c2_invariants_amended_witness :
    AuctionInv initialRunState ∧
    (stepOp initialRunState (AuctionOp.startBidding 20000000 c2Player) =
      some ⟨initialTeamState, 20000000, false, some c2Player⟩) ∧
    AuctionInv ⟨initialTeamState, 20000000, false, some c2Player⟩ := by
  have h0 : AuctionInv initialRunState :=
    ⟨by decide, by decide, by decide, fun _ => by decide, fun hb => by
      simp [initialRunState] at hb⟩
  refine ⟨h0, by decide, ?_⟩
  exact (c2_invariants_amended initialRunState
    (AuctionOp.startBidding 20000000 c2Player)
    ⟨initialTeamState, 20000000, false, some c2Player⟩ h0 (by decide)).1

/-- C7 (confirmed): an innings is complete iff wickets ≥ 10, or
overs ≥ 20, or a target is set and the total has reached it (targets
set by the engine are always positive — `innings1.total_runs + 1` —
which rules out the Python-truthiness corner `target = 0`); and on the
completed second innings the result is: second-batting side wins by
`10 − wickets` when the total reached the target, first-batting side
wins by `(target − 1) − total` when the total is below `target − 1`,
and otherwise a tie. -/
theorem c7_completion_and_result :
    (∀ inn : Innings, (∀ t, inn.target = some t → 0 < t) →
       (inn.isComplete = true ↔
         (10 ≤ inn.wickets ∨ 20 ≤ inn.overs ∨
           ∃ t, inn.target = some t ∧ t ≤ inn.total_runs))) ∧
    (∀ (target : Nat) (inn2 : Innings), 1 ≤ target →
       ((target ≤ inn2.total_runs →
          determineResult target inn2 =
            MatchResult.secondBattingBy (10 - inn2.wickets)) ∧
        (inn2.total_runs + 1 < target →
          determineResult target inn2 =
            MatchResult.firstBattingBy (target - 1 - inn2.total_runs)) ∧
        (inn2.total_runs + 1 = target →
          determineResult target inn2 = MatchResult.tie))) := by
  constructor
  · intro inn ht
    rcases htg : inn.target with _ | t
    · simp only [Innings.isComplete, htg]
      split_ifs with h1 h2
      · simp only [true_iff]
        exact Or.inl h1
      · simp only [true_iff]
        exact Or.inr (Or.inl h2)
      · simp only [false_iff]
        rintro (h | h | hex)
        · exact h1 h
        · exact h2 h
        · exact absurd hex (by simp [htg])
    · have ht0 : t ≠ 0 := Nat.pos_iff_ne_zero.mp (ht t htg)
      simp only [Innings.isComplete, htg]
      split_ifs with h1 h2 h3
      · simp only [true_iff]
        exact Or.inl h1
      · simp only [true_iff]
        exact Or.inr (Or.inl h2)
      · simp only [true_iff]
        exact Or.inr (Or.inr ⟨t, rfl, h3.2⟩)
      · simp only [false_iff]
        rintro (h | h | ⟨t2, ht2, hle⟩)
        · exact h1 h
        · exact h2 h
        · exact h3 ⟨ht0, by
            have : t2 = t := by
              have := Option.some.inj ht2
              omega
            omega⟩
  · intro target inn2 htar
    refine ⟨fun hc => ?_, fun hc => ?_, fun hc => ?_⟩ <;>
      unfold determineResult
    · rw [if_pos hc]
    · rw [if_neg (by omega), if_pos (by omega)]
    · rw [if_neg (by omega), if_neg (by omega)]

/-- C7 witness: a second innings at 185/4 chasing 181 is complete and
read as a 6-wicket win for the side batting second. -/
theorem c7_completion_and_result_witness :
    (c7Innings.isComplete = true ↔
      (10 ≤ c7Innings.wickets ∨ 20 ≤ c7Innings.overs ∨
        ∃ t, c7Innings.target = some t ∧ t ≤ c7Innings.total_runs)) ∧
    determineResult 181 c7Innings = MatchResult.secondBattingBy 6 := by
  constructor
  · exact c7_completion_and_result.1 c7Innings
      (fun t h => by
        have h2 : t = 181 := by
          have := Option.some.inj h
          omega
        omega)
  · exact (c7_completion_and_result.2 181 c7Innings (by omega)).1 (by decide)

/-- The overall rating with the role's primary attributes saturated is
at least 55 (batsman form). -/
theorem ovr_cap_batsman (p : GenPlayer) (hrole : p.role = PlayerRole.batsman)
    (hb : p.batting = 100) : 55 ≤ overallRating p := by
  simp only [overallRating, hrole, hb]
  omega

/-- Saturated-cap bound, bowler form. -/
theorem ovr_cap_bowler (p : GenPlayer) (hrole : p.role = PlayerRole.bowler)
    (hw : p.bowling = 100) : 55 ≤ overallRating p := by
  simp only [overallRating, hrole, hw]
  omega

/-- Saturated-cap bound, all-rounder form. -/
theorem ovr_cap_all_rounder (p : GenPlayer)
    (hrole : p.role = PlayerRole.all_rounder)
    (hb : p.batting = 100) (hw : p.bowling = 100) : 55 ≤ overallRating p := by
  simp only [overallRating, hrole, hb, hw]
  omega

/-- Saturated-cap bound, wicket-keeper form. -/
theorem ovr_cap_wicket_keeper (p : GenPlayer)
    (hrole : p.role = PlayerRole.wicket_keeper)
    (hb : p.batting = 100) (hf : p.fielding = 100) : 55 ≤ overallRating p := by
  simp only [overallRating, hrole, hb, hf]
  omega

/-- The minimum-OVR loop reaches rating ≥ 55 for batsmen: each
iteration raises `batting` by at least 3 (or saturates it at 100). -/
theorem ensureAux_batsman : ∀ (fuel : Nat) (p : GenPlayer),
    p.role = PlayerRole.batsman → p.batting ≤ 100 →
    100 ≤ 3 * fuel + p.batting →
    55 ≤ overallRating (ensureMinimumOvrAux fuel p) := by
  intro fuel
  induction fuel with
  | zero =>
      intro p hrole hb hf
      have hb100 : p.batting = 100 := by omega
      simp only [ensureMinimumOvrAux]
      exact ovr_cap_batsman p hrole hb100
  | succ n ih =>
      intro p hrole hb hf
      simp only [ensureMinimumOvrAux]
      split_ifs with hlow
      · apply ih
        · simp only [boostOnce, hrole]
        · simp only [boostOnce, hrole]
          omega
        · simp only [boostOnce, overallRating, hrole]
          simp only [overallRating, hrole] at hlow
          omega
      · exact le_of_not_lt hlow

/-- The minimum-OVR loop reaches rating ≥ 55 for bowlers. -/
theorem ensureAux_bowler : ∀ (fuel : Nat) (p : GenPlayer),
    p.role = PlayerRole.bowler → p.bowling ≤ 100 →
    100 ≤ 3 * fuel + p.bowling →
    55 ≤ overallRating (ensureMinimumOvrAux fuel p) := by
  intro fuel
  induction fuel with
  | zero =>
      intro p hrole hw hf
      have hw100 : p.bowling = 100 := by omega
      simp only [ensureMinimumOvrAux]
      exact ovr_cap_bowler p hrole hw100
  | succ n ih =>
      intro p hrole hw hf
      simp only [ensureMinimumOvrAux]
      split_ifs with hlow
      · apply ih
        · simp only [boostOnce, hrole]
        · simp only [boostOnce, hrole]
          omega
        · simp only [boostOnce, overallRating, hrole]
          simp only [overallRating, hrole] at hlow
          omega
      · exact le_of_not_lt hlow

/-- The minimum-OVR loop reaches rating ≥ 55 for all-rounders: each
iteration raises `batting` and `bowling` by at least 2 each (or
saturates them), and with both at 100 the rating is at least 80. -/
theorem ensureAux_all_rounder : ∀ (fuel : Nat) (p : GenPlayer),
    p.role = PlayerRole.all_rounder → p.batting ≤ 100 → p.bowling ≤ 100 →
    (100 - p.batting) + (100 - p.bowling) ≤ 2 * fuel →
    55 ≤ overallRating (ensureMinimumOvrAux fuel p) := by
  intro fuel
  induction fuel with
  | zero =>
      intro p hrole hb hw hf
      have hb100 : p.batting = 100 := by omega
      have hw100 : p.bowling = 100 := by omega
      simp only [ensureMinimumOvrAux]
      exact ovr_cap_all_rounder p hrole hb100 hw100
  | succ n ih =>
      intro p hrole hb hw hf
      simp only [ensureMinimumOvrAux]
      split_ifs with hlow
      · have hnot : ¬(p.batting = 100 ∧ p.bowling = 100) := by
          rintro ⟨h1, h2⟩
          exact absurd (ovr_cap_all_rounder p hrole h1 h2) (by omega)
        apply ih
        · simp only [boostOnce, hrole]
        · simp only [boostOnce, hrole]
          omega
        · simp only [boostOnce, hrole]
          omega
        · simp only [boostOnce, overallRating, hrole]
          simp only [overallRating, hrole] at hlow
          omega
      · exact le_of_not_lt hlow

/-- The minimum-OVR loop reaches rating ≥ 55 for wicket-keepers: each
iteration raises `batting` and `fielding` by at least 2 each (or
saturates them), and with both at 100 the rating is at least 90. -/
theorem ensureAux_wicket_keeper : ∀ (fuel : Nat) (p : GenPlayer),
    p.role = PlayerRole.wicket_keeper → p.batting ≤ 100 → p.fielding ≤ 100 →
    (100 - p.batting) + (100 - p.fielding) ≤ 2 * fuel →
    55 ≤ overallRating (ensureMinimumOvrAux fuel p) := by
  intro fuel
  induction fuel with
  | zero =>
      intro p hrole hb hfd hf
      have hb100 : p.batting = 100 := by omega
      have hf100 : p.fielding = 100 := by omega
      simp only [ensureMinimumOvrAux]
      exact ovr_cap_wicket_keeper p hrole hb100 hf100
  | succ n ih =>
      intro p hrole hb hfd hf
      simp only [ensureMinimumOvrAux]
      split_ifs with hlow
      · have hnot : ¬(p.batting = 100 ∧ p.fielding = 100) := by
          rintro ⟨h1, h2⟩
          exact absurd (ovr_cap_wicket_keeper p hrole h1 h2) (by omega)
        apply ih
        · simp only [boostOnce, hrole]
        · simp only [boostOnce, hrole]
          omega
        · simp only [boostOnce, hrole]
          omega
        · simp only [boostOnce, overallRating, hrole]
          simp only [overallRating, hrole] at hlow
          omega
      · exact le_of_not_lt hlow

/-- C8 (confirmed): for every attribute draw (all attributes at most
100 — `_generate_attribute` clamps into [1, 100]), the minimum-OVR
loop terminates within its fuel and the resulting player's overall
rating is at least 55; no draw is ever rejected. -/
theorem c8_minimum_ovr (p : GenPlayer) (hb : p.batting ≤ 100)
    (hw : p.bowling ≤ 100) (hf : p.fielding ≤ 100) :
    55 ≤ overallRating (ensureMinimumOvr p) := by
  unfold ensureMinimumOvr
  cases hrole : p.role with
  | batsman => exact ensureAux_batsman 200 p hrole hb (by omega)
  | bowler => exact ensureAux_bowler 200 p hrole hw (by omega)
  | all_rounder => exact ensureAux_all_rounder 200 p hrole hb hw (by omega)
  | wicket_keeper => exact ensureAux_wicket_keeper 200 p hrole hb hf (by omega)

/-- C8 witness: the weakest possible batsman draw is boosted to an
overall rating of at least 55. -/
theorem c8_minimum_ovr_witness :
    ((1 : Nat) ≤ 100 ∧ (1 : Nat) ≤ 100 ∧ (1 : Nat) ≤ 100) ∧
    55 ≤ overallRating (ensureMinimumOvr ⟨PlayerRole.batsman, 1, 1, 1, 1⟩) :=
  ⟨⟨by decide, by decide, by decide⟩,
    c8_minimum_ovr ⟨PlayerRole.batsman, 1, 1, 1, 1⟩
      (by decide) (by decide) (by decide)⟩

/-! ## C5: the wickets-per-over cap -/

theorem recordLegalOver_this_over (s : MPlayer) (o : BallOutcome)
    (inn : Innings) : (recordLegalOver s o inn).this_over = inn.this_over :=
  rfl

theorem recordSpellTotalsOver_this_over (b : MPlayer) (o : BallOutcome)
    (inn : Innings) :
    (recordSpellTotalsOver b o inn).this_over = inn.this_over :=
  rfl

theorem recordWicketOver_this_over (b : MPlayer) (o : BallOutcome)
    (inn : Innings) :
    (recordWicketOver b o inn).this_over = inn.this_over := by
  simp only [recordWicketOver]
  split <;> rfl

theorem rotateStrike_this_over (inn : Innings) :
    (rotateStrike inn).this_over = inn.this_over :=
  rfl

theorem overEnd_this_over (b : MPlayer) (inn : Innings) :
    (overEnd b inn).this_over = inn.this_over :=
  rfl

theorem wicketCount_append (l : List BallOutcome) (o : BallOutcome) :
    wicketCount (l ++ [o]) =
      wicketCount l + (if o.is_wicket = true then 1 else 0) := by
  unfold wicketCount
  rw [List.filter_append]
  cases h : o.is_wicket <;> simp [h]

theorem overBallStep_this_over (b : MPlayer) (a : Aggression) (r : BallRand)
    (bb wto : Nat) (inn : Innings) :
    (overBallStep b a r bb wto inn).1.this_over =
      inn.this_over ++ [storedOutcome b a r wto inn] := by
  simp only [overBallStep]
  split_ifs <;>
    simp only [recordWicketOver_this_over, recordSpellTotalsOver_this_over,
      recordLegalOver_this_over, rotateStrike_this_over]

theorem overBallStep_wto (b : MPlayer) (a : Aggression) (r : BallRand)
    (bb wto : Nat) (inn : Innings) :
    (overBallStep b a r bb wto inn).2.2 =
      if (storedOutcome b a r wto inn).is_wicket = true then wto + 1
      else wto := by
  simp only [overBallStep, storedOutcome]
  by_cases ho : (simulateBall (findPlayer inn.batting_team inn.striker_id)
      b inn a r).is_wicket = true
  · by_cases hw : wto ≥ 3
    · simp [ho, hw]
    · simp [ho, hw]
  · rw [Bool.not_eq_true] at ho
    simp [ho]

theorem storedOutcome_wicket_lt (b : MPlayer) (a : Aggression) (r : BallRand)
    (wto : Nat) (inn : Innings)
    (h : (storedOutcome b a r wto inn).is_wicket = true) : wto < 3 := by
  by_contra hge
  have h3 : wto ≥ 3 := Nat.le_of_not_lt hge
  simp only [storedOutcome] at h
  cases ho : (simulateBall (findPlayer inn.batting_team inn.striker_id)
      b inn a r).is_wicket with
  | false => simp [ho] at h
  | true => simp [ho, h3] at h

theorem simulateOverLoop_wicket_bound (b : MPlayer) (a : Aggression) :
    ∀ (rs : List BallRand) (bb wto : Nat) (inn : Innings),
      wicketCount (simulateOverLoop b a rs bb wto inn).this_over ≤
        wicketCount inn.this_over + (3 - wto) := by
  intro rs
  induction rs with
  | nil =>
      intro bb wto inn
      simp only [simulateOverLoop]
      omega
  | cons r rest ih =>
      intro bb wto inn
      simp only [simulateOverLoop]
      split_ifs with h1 h2
      · rw [overEnd_this_over, overBallStep_this_over, wicketCount_append]
        cases ho : (storedOutcome b a r wto inn).is_wicket with
        | false => simp [ho]
        | true =>
            have hlt := storedOutcome_wicket_lt b a r wto inn ho
            simp only [ho, if_pos]
            omega
      · have h3 := ih (overBallStep b a r bb wto inn).2.1
          (overBallStep b a r bb wto inn).2.2 (overBallStep b a r bb wto inn).1
        rw [overBallStep_this_over, wicketCount_append, overBallStep_wto] at h3
        rw [overBallStep_wto]
        cases ho : (storedOutcome b a r wto inn).is_wicket with
        | false =>
            simp only [ho, Bool.false_eq_true, if_false] at h3 ⊢
            omega
        | true =>
            have hlt := storedOutcome_wicket_lt b a r wto inn ho
            simp only [ho, if_true] at h3 ⊢
            omega
      · omega

/-- C5 (amended): on the engine's `simulate_over` path the cap holds —
for every starting innings, bowler choice, aggression and oracle
sequence, the over's recorded ball list contains at most 3 wickets,
a would-be fourth wicket having been demoted to a no-wicket dot ball.
The cap does NOT hold on the interactive `play_ball` path (see the
counterexample): `play_ball` records every wicket unconditionally. -/
theorem c5_wicket_cap_amended (inn : Innings) (selIdx : Nat)
    (aggr : Aggression) (rands : List BallRand) :
    wicketCount (simulateOver inn selIdx aggr rands).this_over ≤ 3 := by
  simp only [simulateOver]
  refine le_trans (simulateOverLoop_wicket_bound _ _ rands 0 0 _) ?_
  simp [wicketCount]

/-- C5 (counterexample — the claim is false on the interactive path):
four consecutive jaffa deliveries through `play_ball` are all recorded
as wickets in the same over: the over's ball list carries 4 wicket
outcomes and the innings stands at 4 wickets with the over (overs = 0,
4 legal balls) still in progress.  `play_ball` (`app/api/match.py`
lines 697-717) has no wickets-per-over cap and no demotion. -/
theorem c5_wicket_cap_counterexample :
    (c5Chain.map (fun i => wicketCount i.this_over)).getD 0 = 4 ∧
    (c5Chain.map (fun i => i.wickets)).getD 0 = 4 ∧
    (c5Chain.map (fun i => i.overs)).getD 0 = 0 ∧
    (c5Chain.map (fun i => i.balls)).getD 0 = 4 :=
  ⟨by decide, by decide, by decide, by decide⟩

/-! ## C4: the run / ball ledger -/

theorem noBallOverage_append (l : List BallOutcome) (o : BallOutcome) :
    noBallOverage (l ++ [o]) =
      noBallOverage l + (if o.is_no_ball = true then o.runs - 1 else 0) := by
  unfold noBallOverage
  rw [List.filter_append]
  cases h : o.is_no_ball <;> simp [h]

theorem getLast?_append_one {α : Type} (l : List α) (a : α) :
    (l ++ [a]).getLast? = some a := by
  induction l with
  | nil => rfl
  | cons x t ih =>
      cases t with
      | nil => rfl
      | cons y s =>
          rw [List.cons_append, List.cons_append, List.getLast?_cons_cons]
          rw [List.cons_append] at ih
          exact ih

theorem drop_eq_cons_of_get {α : Type} :
    ∀ (l : List α) (n : Nat) (a : α), l.get? n = some a →
      l.drop n = a :: l.drop (n + 1) := by
  intro l
  induction l with
  | nil => intro n a h; exact Option.noConfusion h
  | cons x t ih =>
      intro n a h
      cases n with
      | zero =>
          injection h with h
          subst h
          rfl
      | succ m => exact ih m a h

theorem findPlayer_pid (l : List MPlayer) (k : Nat)
    (h : k ∈ l.map (·.pid)) : (findPlayer l k).pid = k := by
  rcases List.mem_map.mp h with ⟨p, hp, hpk⟩
  have hfind : (l.find? (fun q => q.pid == k)).isSome = true := by
    rw [List.find?_isSome]
    exact ⟨p, hp, by simp [hpk]⟩
  rcases Option.isSome_iff_exists.mp hfind with ⟨q, hq⟩
  have hqk := List.find?_some hq
  unfold findPlayer
  rw [hq]
  simpa using hqk

theorem updateBatter_map_pid (l : List BatterRec) (k : Nat)
    (f : BatterRec → BatterRec) (hf : ∀ x, (f x).pid = x.pid) :
    (updateBatter l k f).map (·.pid) = l.map (·.pid) := by
  unfold updateBatter
  rw [List.map_map]
  apply List.map_congr_left
  intro a _
  by_cases hx : (a.pid == k) = true <;> simp [Function.comp, hx, hf]

theorem updateBatter_eq_of_not_mem :
    ∀ (l : List BatterRec) (k : Nat) (f : BatterRec → BatterRec),
      k ∉ l.map (·.pid) → updateBatter l k f = l := by
  intro l
  induction l with
  | nil => intro k f _; rfl
  | cons x t ih =>
      intro k f h
      simp only [List.map_cons, List.mem_cons, not_or] at h
      have hx : (x.pid == k) = false := by
        rw [beq_eq_false_iff_ne]
        exact fun he => h.1 he.symm
      show (if (x.pid == k) = true then f x else x) :: updateBatter t k f = x :: t
      rw [hx, ih k f h.2]
      simp

theorem sum_map_updateBatter (g : BatterRec → Nat) (f : BatterRec → BatterRec)
    (d : Nat) (hf : ∀ x, g (f x) = g x + d) :
    ∀ (l : List BatterRec) (k : Nat), (l.map (·.pid)).Nodup →
      k ∈ l.map (·.pid) →
      ((updateBatter l k f).map g).sum = (l.map g).sum + d := by
  intro l
  induction l with
  | nil => intro k _ hk; exact absurd hk (by simp)
  | cons x t ih =>
      intro k hnd hk
      simp only [List.map_cons, List.nodup_cons] at hnd
      obtain ⟨hxn, hndt⟩ := hnd
      simp only [List.map_cons, List.mem_cons] at hk
      show (((if (x.pid == k) = true then f x else x) ::
          updateBatter t k f).map g).sum = ((x :: t).map g).sum + d
      rw [List.map_cons, List.sum_cons, List.map_cons, List.sum_cons]
      by_cases hx : x.pid = k
      · have hb : (x.pid == k) = true := beq_iff_eq.mpr hx
        rw [if_pos hb, hf x, updateBatter_eq_of_not_mem t k f (hx ▸ hxn)]
        omega
      · have hb : (x.pid == k) = false := by
          rw [beq_eq_false_iff_ne]
          exact hx
        rw [if_neg (by rw [hb]; exact Bool.false_ne_true)]
        have hkt : k ∈ t.map (·.pid) := by
          rcases hk with h | h
          · exact absurd h.symm hx
          · exact h
        rw [ih k hndt hkt]
        omega

theorem putBatter_of_not_mem (l : List BatterRec) (b : BatterRec)
    (h : b.pid ∉ l.map (·.pid)) : putBatter l b = l ++ [b] := by
  cases hany : l.any (fun x => x.pid == b.pid) with
  | true =>
      rcases List.any_eq_true.mp hany with ⟨x, hx, hbx⟩
      exact absurd (List.mem_map.mpr ⟨x, hx, by rwa [beq_iff_eq] at hbx⟩) h
  | false =>
      unfold putBatter
      rw [hany]
      simp

theorem simulateBallV2_no_extras (bt : MPlayer) (inn : Innings)
    (ap : Approach) (r : BallRand) :
    (simulateBallV2 bt inn ap r).is_wide = false ∧
    (simulateBallV2 bt inn ap r).is_no_ball = false := by
  simp only [simulateBallV2]
  split_ifs
  · exact ⟨rfl, rfl⟩
  · split <;> exact ⟨rfl, rfl⟩

theorem simulateBall_cases (bt bw : MPlayer) (inn : Innings)
    (a : Aggression) (r : BallRand) :
    simulateBall bt bw inn a r =
      { emptyOutcome with runs := 1, is_wide := true } ∨
    ((simulateBall bt bw inn a r).is_wide = false ∧
     (simulateBall bt bw inn a r).is_no_ball = true ∧
     (simulateBall bt bw inn a r).is_wicket = false ∧
     1 ≤ (simulateBall bt bw inn a r).runs) ∨
    ((simulateBall bt bw inn a r).is_wide = false ∧
     (simulateBall bt bw inn a r).is_no_ball = false) := by
  simp only [simulateBall]
  split_ifs with h1 h2
  · exact Or.inl rfl
  · exact Or.inr (Or.inl ⟨rfl, rfl, rfl, Nat.le_add_left 1 _⟩)
  · exact Or.inr (Or.inr (simulateBallV2_no_extras bt inn _ r))

theorem recordLegalOver_balls (st : MPlayer) (o : BallOutcome)
    (inn : Innings) : (recordLegalOver st o inn).balls = inn.balls + 1 := rfl

theorem recordLegalOver_overs (st : MPlayer) (o : BallOutcome)
    (inn : Innings) : (recordLegalOver st o inn).overs = inn.overs := rfl

theorem recordLegalOver_total (st : MPlayer) (o : BallOutcome)
    (inn : Innings) :
    (recordLegalOver st o inn).total_runs = inn.total_runs := rfl

theorem recordLegalOver_extras (st : MPlayer) (o : BallOutcome)
    (inn : Innings) : (recordLegalOver st o inn).extras = inn.extras := rfl

theorem recordLegalOver_pid_map (st : MPlayer) (o : BallOutcome)
    (inn : Innings) :
    (recordLegalOver st o inn).batter_innings.map (·.pid) =
      inn.batter_innings.map (·.pid) :=
  updateBatter_map_pid _ _ _ (fun x => rfl)

theorem recordLegalOver_runsSum (st : MPlayer) (o : BallOutcome)
    (inn : Innings) (hnd : (inn.batter_innings.map (·.pid)).Nodup)
    (hmem : st.pid ∈ inn.batter_innings.map (·.pid)) :
    sumBatterRuns (recordLegalOver st o inn) = sumBatterRuns inn + o.runs :=
  sum_map_updateBatter (·.runs) _ o.runs (fun x => rfl) _ _ hnd hmem

theorem recordLegalOver_ballsSum (st : MPlayer) (o : BallOutcome)
    (inn : Innings) (hnd : (inn.batter_innings.map (·.pid)).Nodup)
    (hmem : st.pid ∈ inn.batter_innings.map (·.pid)) :
    sumBatterBalls (recordLegalOver st o inn) = sumBatterBalls inn + 1 :=
  sum_map_updateBatter (·.balls) _ 1 (fun x => rfl) _ _ hnd hmem

theorem recordLegalOver_wf (st : MPlayer) (o : BallOutcome) (inn : Innings)
    (hwf : InningsWF inn) : InningsWF (recordLegalOver st o inn) := by
  obtain ⟨h1, h2, h3, h4, h5, h6, h7, h8⟩ := hwf
  refine ⟨?_, ?_, ?_, h4, ?_, h6, h7, h8⟩
  · rw [recordLegalOver_pid_map]; exact h1
  · rw [recordLegalOver_pid_map]; exact h2
  · rw [recordLegalOver_pid_map]; exact h3
  · intro nb hnb
    rw [recordLegalOver_pid_map]
    exact h5 nb hnb

theorem recordSpellTotalsOver_balls (bw : MPlayer) (o : BallOutcome)
    (inn : Innings) : (recordSpellTotalsOver bw o inn).balls = inn.balls := rfl

theorem recordSpellTotalsOver_overs (bw : MPlayer) (o : BallOutcome)
    (inn : Innings) : (recordSpellTotalsOver bw o inn).overs = inn.overs := rfl

theorem recordSpellTotalsOver_total (bw : MPlayer) (o : BallOutcome)
    (inn : Innings) :
    (recordSpellTotalsOver bw o inn).total_runs = inn.total_runs + o.runs :=
  rfl

theorem recordSpellTotalsOver_extras (bw : MPlayer) (o : BallOutcome)
    (inn : Innings) :
    (recordSpellTotalsOver bw o inn).extras =
      inn.extras + (if o.is_wide || o.is_no_ball then 1 else 0) := rfl

theorem recordSpellTotalsOver_runsSum (bw : MPlayer) (o : BallOutcome)
    (inn : Innings) :
    sumBatterRuns (recordSpellTotalsOver bw o inn) = sumBatterRuns inn := rfl

theorem recordSpellTotalsOver_ballsSum (bw : MPlayer) (o : BallOutcome)
    (inn : Innings) :
    sumBatterBalls (recordSpellTotalsOver bw o inn) = sumBatterBalls inn := rfl

theorem recordSpellTotalsOver_wf (bw : MPlayer) (o : BallOutcome)
    (inn : Innings) (hwf : InningsWF inn) :
    InningsWF (recordSpellTotalsOver bw o inn) := hwf

theorem rotateStrike_balls (inn : Innings) :
    (rotateStrike inn).balls = inn.balls := rfl

theorem rotateStrike_overs (inn : Innings) :
    (rotateStrike inn).overs = inn.overs := rfl

theorem rotateStrike_total (inn : Innings) :
    (rotateStrike inn).total_runs = inn.total_runs := rfl

theorem rotateStrike_extras (inn : Innings) :
    (rotateStrike inn).extras = inn.extras := rfl

theorem rotateStrike_runsSum (inn : Innings) :
    sumBatterRuns (rotateStrike inn) = sumBatterRuns inn := rfl

theorem rotateStrike_ballsSum (inn : Innings) :
    sumBatterBalls (rotateStrike inn) = sumBatterBalls inn := rfl

theorem rotateStrike_wf (inn : Innings) (hwf : InningsWF inn) :
    InningsWF (rotateStrike inn) := by
  obtain ⟨h1, h2, h3, h4, h5, h6, h7, h8⟩ := hwf
  exact ⟨h1, h3, h2, h4, h5, h7, h6, h8⟩

theorem overEnd_overs (bw : MPlayer) (inn : Innings) :
    (overEnd bw inn).overs = inn.overs + 1 := rfl

theorem overEnd_balls (bw : MPlayer) (inn : Innings) :
    (overEnd bw inn).balls = 0 := rfl

theorem overEnd_total (bw : MPlayer) (inn : Innings) :
    (overEnd bw inn).total_runs = inn.total_runs := rfl

theorem overEnd_extras (bw : MPlayer) (inn : Innings) :
    (overEnd bw inn).extras = inn.extras := rfl

theorem overEnd_runsSum (bw : MPlayer) (inn : Innings) :
    sumBatterRuns (overEnd bw inn) = sumBatterRuns inn := rfl

theorem overEnd_ballsSum (bw : MPlayer) (inn : Innings) :
    sumBatterBalls (overEnd bw inn) = sumBatterBalls inn := rfl

theorem sumBatterRuns_set_this_over (inn : Innings) (l : List BallOutcome) :
    sumBatterRuns { inn with this_over := l } = sumBatterRuns inn := rfl

theorem sumBatterBalls_set_this_over (inn : Innings) (l : List BallOutcome) :
    sumBatterBalls { inn with this_over := l } = sumBatterBalls inn := rfl

theorem sumBatterRuns_set_spells (inn : Innings) (l : List BowlerSpell) :
    sumBatterRuns { inn with bowler_spells := l } = sumBatterRuns inn := rfl

theorem sumBatterBalls_set_spells (inn : Innings) (l : List BowlerSpell) :
    sumBatterBalls { inn with bowler_spells := l } = sumBatterBalls inn := rfl

theorem recordWicketOver_ledger (bw : MPlayer) (o : BallOutcome)
    (inn : Innings) (hwf : InningsWF inn) :
    InningsWF (recordWicketOver bw o inn) ∧
    sumBatterRuns (recordWicketOver bw o inn) = sumBatterRuns inn ∧
    sumBatterBalls (recordWicketOver bw o inn) = sumBatterBalls inn := by
  obtain ⟨h1, h2, h3, h4, h5, h6, h7, h8⟩ := hwf
  have hupd : (updateBatter inn.batter_innings inn.striker_id
      (fun b => { b with is_out := true,
                         dismissal := o.dismissal_type })).map (·.pid)
      = inn.batter_innings.map (·.pid) :=
    updateBatter_map_pid _ _ _ (fun x => rfl)
  have hsr : ((updateBatter inn.batter_innings inn.striker_id
      (fun b => { b with is_out := true,
                         dismissal := o.dismissal_type })).map (·.runs)).sum
      = (inn.batter_innings.map (·.runs)).sum :=
    sum_map_updateBatter (·.runs)
      (fun b => { b with is_out := true, dismissal := o.dismissal_type })
      0 (fun x => rfl) _ _ h1 h2
  have hsb : ((updateBatter inn.batter_innings inn.striker_id
      (fun b => { b with is_out := true,
                         dismissal := o.dismissal_type })).map (·.balls)).sum
      = (inn.batter_innings.map (·.balls)).sum :=
    sum_map_updateBatter (·.balls)
      (fun b => { b with is_out := true, dismissal := o.dismissal_type })
      0 (fun x => rfl) _ _ h1 h2
  cases hg : inn.batting_order.get? inn.next_batter_index with
  | none =>
      simp only [recordWicketOver, hg]
      exact ⟨⟨by rw [hupd]; exact h1,
              by rw [hupd]; exact h2,
              by rw [hupd]; exact h3,
              h4,
              fun nb hnb => by rw [hupd]; exact h5 nb hnb,
              h6, h7, h8⟩,
             hsr, hsb⟩
  | some nb =>
      simp only [recordWicketOver, hg]
      have hdrop : inn.batting_order.drop inn.next_batter_index
          = nb :: inn.batting_order.drop (inn.next_batter_index + 1) :=
        drop_eq_cons_of_get inn.batting_order inn.next_batter_index nb hg
      have hnbo : nb ∈ inn.batting_order :=
        List.mem_of_mem_drop (l := inn.batting_order)
          (n := inn.next_batter_index)
          (by rw [hdrop]; exact List.mem_cons_self _ _)
      have hfresh : nb ∉ inn.batter_innings.map (·.pid) := by
        apply h5
        rw [hdrop]
        exact List.mem_cons_self _ _
      have hput : putBatter (updateBatter inn.batter_innings inn.striker_id
            (fun b => { b with is_out := true,
                               dismissal := o.dismissal_type }))
            (newBatterRec nb)
          = updateBatter inn.batter_innings inn.striker_id
              (fun b => { b with is_out := true,
                                 dismissal := o.dismissal_type })
            ++ [newBatterRec nb] := by
        apply putBatter_of_not_mem
        show nb ∉ _
        rw [hupd]
        exact hfresh
      rw [hput]
      have c1 : ((updateBatter inn.batter_innings inn.striker_id
          (fun b => { b with is_out := true,
                             dismissal := o.dismissal_type })
          ++ [newBatterRec nb]).map (·.pid)).Nodup := by
        rw [List.map_append, hupd]
        rw [List.nodup_append]
        refine ⟨h1, by simp, ?_⟩
        intro x hx hx2
        simp only [List.map_cons, List.map_nil, List.mem_singleton,
          newBatterRec] at hx2
        subst hx2
        exact hfresh hx
      have c2 : nb ∈ (updateBatter inn.batter_innings inn.striker_id
          (fun b => { b with is_out := true,
                             dismissal := o.dismissal_type })
          ++ [newBatterRec nb]).map (·.pid) := by
        rw [List.map_append, hupd]
        exact List.mem_append_right _ (by simp [newBatterRec])
      have c3 : inn.non_striker_id ∈ (updateBatter inn.batter_innings
          inn.striker_id
          (fun b => { b with is_out := true,
                             dismissal := o.dismissal_type })
          ++ [newBatterRec nb]).map (·.pid) := by
        rw [List.map_append, hupd]
        exact List.mem_append_left _ h3
      have c5 : ∀ x ∈ inn.batting_order.drop (inn.next_batter_index + 1),
          x ∉ (updateBatter inn.batter_innings inn.striker_id
            (fun b => { b with is_out := true,
                               dismissal := o.dismissal_type })
            ++ [newBatterRec nb]).map (·.pid) := by
        intro x hx
        rw [List.map_append, hupd]
        have hxo : x ∉ inn.batter_innings.map (·.pid) := by
          apply h5
          rw [hdrop]
          exact List.mem_cons_of_mem _ hx
        have hnddrop : (inn.batting_order.drop inn.next_batter_index).Nodup :=
          List.Nodup.sublist (List.drop_sublist _ _) h4
        rw [hdrop] at hnddrop
        have hxn : x ≠ nb := by
          intro he
          subst he
          exact (List.nodup_cons.mp hnddrop).1 hx
        intro hmem
        rcases List.mem_append.mp hmem with hm | hm
        · exact hxo hm
        · simp only [List.map_cons, List.map_nil, List.mem_singleton,
            newBatterRec] at hm
          exact hxn hm
      have csr : (((updateBatter inn.batter_innings inn.striker_id
          (fun b => { b with is_out := true,
                             dismissal := o.dismissal_type })
          ++ [newBatterRec nb]).map (·.runs)).sum)
          = (inn.batter_innings.map (·.runs)).sum := by
        rw [List.map_append, List.sum_append, hsr]
        simp [newBatterRec]
      have csb : (((updateBatter inn.batter_innings inn.striker_id
          (fun b => { b with is_out := true,
                             dismissal := o.dismissal_type })
          ++ [newBatterRec nb]).map (·.balls)).sum)
          = (inn.batter_innings.map (·.balls)).sum := by
        rw [List.map_append, List.sum_append, hsb]
        simp [newBatterRec]
      exact ⟨⟨c1, c2, c3, h4, c5, h8 nb hnbo, h7, h8⟩, csr, csb⟩

theorem recordWicketOver_wf (bw : MPlayer) (o : BallOutcome)
    (inn : Innings) (hwf : InningsWF inn) :
    InningsWF (recordWicketOver bw o inn) :=
  (recordWicketOver_ledger bw o inn hwf).1

theorem recordWicketOver_runsSum (bw : MPlayer) (o : BallOutcome)
    (inn : Innings) (hwf : InningsWF inn) :
    sumBatterRuns (recordWicketOver bw o inn) = sumBatterRuns inn :=
  (recordWicketOver_ledger bw o inn hwf).2.1

theorem recordWicketOver_ballsSum (bw : MPlayer) (o : BallOutcome)
    (inn : Innings) (hwf : InningsWF inn) :
    sumBatterBalls (recordWicketOver bw o inn) = sumBatterBalls inn :=
  (recordWicketOver_ledger bw o inn hwf).2.2

theorem recordWicketOver_more_fields (bw : MPlayer) (o : BallOutcome)
    (inn : Innings) :
    (recordWicketOver bw o inn).balls = inn.balls ∧
    (recordWicketOver bw o inn).overs = inn.overs ∧
    (recordWicketOver bw o inn).total_runs = inn.total_runs ∧
    (recordWicketOver bw o inn).extras = inn.extras := by
  cases hg : inn.batting_order.get? inn.next_batter_index with
  | none =>
      simp only [recordWicketOver, hg]
      simp
  | some nb =>
      simp only [recordWicketOver, hg]
      simp

theorem recordLegalApi_balls (st : MPlayer) (o : BallOutcome)
    (inn : Innings) : (recordLegalApi st o inn).balls = inn.balls + 1 := rfl

theorem recordLegalApi_overs (st : MPlayer) (o : BallOutcome)
    (inn : Innings) : (recordLegalApi st o inn).overs = inn.overs := rfl

theorem recordLegalApi_total (st : MPlayer) (o : BallOutcome)
    (inn : Innings) :
    (recordLegalApi st o inn).total_runs = inn.total_runs := rfl

theorem recordLegalApi_extras (st : MPlayer) (o : BallOutcome)
    (inn : Innings) : (recordLegalApi st o inn).extras = inn.extras := rfl

theorem recordLegalApi_this_over (st : MPlayer) (o : BallOutcome)
    (inn : Innings) :
    (recordLegalApi st o inn).this_over = inn.this_over := rfl

theorem recordLegalApi_pid_map (st : MPlayer) (o : BallOutcome)
    (inn : Innings) :
    (recordLegalApi st o inn).batter_innings.map (·.pid) =
      inn.batter_innings.map (·.pid) :=
  updateBatter_map_pid _ _ _ (fun x => rfl)

theorem recordLegalApi_runsSum (st : MPlayer) (o : BallOutcome)
    (inn : Innings) (hnd : (inn.batter_innings.map (·.pid)).Nodup)
    (hmem : st.pid ∈ inn.batter_innings.map (·.pid)) :
    sumBatterRuns (recordLegalApi st o inn) = sumBatterRuns inn + o.runs :=
  sum_map_updateBatter (·.runs) _ o.runs (fun x => rfl) _ _ hnd hmem

theorem recordLegalApi_ballsSum (st : MPlayer) (o : BallOutcome)
    (inn : Innings) (hnd : (inn.batter_innings.map (·.pid)).Nodup)
    (hmem : st.pid ∈ inn.batter_innings.map (·.pid)) :
    sumBatterBalls (recordLegalApi st o inn) = sumBatterBalls inn + 1 :=
  sum_map_updateBatter (·.balls) _ 1 (fun x => rfl) _ _ hnd hmem

theorem recordLegalApi_wf (st : MPlayer) (o : BallOutcome) (inn : Innings)
    (hwf : InningsWF inn) : InningsWF (recordLegalApi st o inn) := by
  obtain ⟨h1, h2, h3, h4, h5, h6, h7, h8⟩ := hwf
  refine ⟨?_, ?_, ?_, h4, ?_, h6, h7, h8⟩
  · rw [recordLegalApi_pid_map]; exact h1
  · rw [recordLegalApi_pid_map]; exact h2
  · rw [recordLegalApi_pid_map]; exact h3
  · intro nb hnb
    rw [recordLegalApi_pid_map]
    exact h5 nb hnb

theorem recordSpellTotalsApi_balls (k : Nat) (o : BallOutcome)
    (inn : Innings) : (recordSpellTotalsApi k o inn).balls = inn.balls := rfl

theorem recordSpellTotalsApi_overs (k : Nat) (o : BallOutcome)
    (inn : Innings) : (recordSpellTotalsApi k o inn).overs = inn.overs := rfl

theorem recordSpellTotalsApi_total (k : Nat) (o : BallOutcome)
    (inn : Innings) :
    (recordSpellTotalsApi k o inn).total_runs = inn.total_runs + o.runs := rfl

theorem recordSpellTotalsApi_extras (k : Nat) (o : BallOutcome)
    (inn : Innings) :
    (recordSpellTotalsApi k o inn).extras =
      inn.extras + (if o.is_wide || o.is_no_ball then 1 else 0) := rfl

theorem recordSpellTotalsApi_this_over (k : Nat) (o : BallOutcome)
    (inn : Innings) :
    (recordSpellTotalsApi k o inn).this_over = inn.this_over := rfl

theorem recordSpellTotalsApi_runsSum (k : Nat) (o : BallOutcome)
    (inn : Innings) :
    sumBatterRuns (recordSpellTotalsApi k o inn) = sumBatterRuns inn := rfl

theorem recordSpellTotalsApi_ballsSum (k : Nat) (o : BallOutcome)
    (inn : Innings) :
    sumBatterBalls (recordSpellTotalsApi k o inn) = sumBatterBalls inn := rfl

theorem recordSpellTotalsApi_wf (k : Nat) (o : BallOutcome)
    (inn : Innings) (hwf : InningsWF inn) :
    InningsWF (recordSpellTotalsApi k o inn) := hwf

theorem recordWicketApi_ledger (k : Nat) (o : BallOutcome)
    (inn : Innings) (hwf : InningsWF inn) :
    sumBatterRuns (recordWicketApi k o inn) = sumBatterRuns inn ∧
    sumBatterBalls (recordWicketApi k o inn) = sumBatterBalls inn := by
  obtain ⟨h1, h2, h3, h4, h5, h6, h7, h8⟩ := hwf
  have hupd : (updateBatter inn.batter_innings inn.striker_id
      (fun b => { b with is_out := true,
                         dismissal := o.dismissal_type })).map (·.pid)
      = inn.batter_innings.map (·.pid) :=
    updateBatter_map_pid _ _ _ (fun x => rfl)
  have hsr : ((updateBatter inn.batter_innings inn.striker_id
      (fun b => { b with is_out := true,
                         dismissal := o.dismissal_type })).map (·.runs)).sum
      = (inn.batter_innings.map (·.runs)).sum :=
    sum_map_updateBatter (·.runs)
      (fun b => { b with is_out := true, dismissal := o.dismissal_type })
      0 (fun x => rfl) _ _ h1 h2
  have hsb : ((updateBatter inn.batter_innings inn.striker_id
      (fun b => { b with is_out := true,
                         dismissal := o.dismissal_type })).map (·.balls)).sum
      = (inn.batter_innings.map (·.balls)).sum :=
    sum_map_updateBatter (·.balls)
      (fun b => { b with is_out := true, dismissal := o.dismissal_type })
      0 (fun x => rfl) _ _ h1 h2
  cases hg : inn.batting_order.get? inn.next_batter_index with
  | none =>
      simp only [recordWicketApi, hg]
      exact ⟨hsr, hsb⟩
  | some nb =>
      simp only [recordWicketApi, hg]
      have hdrop : inn.batting_order.drop inn.next_batter_index
          = nb :: inn.batting_order.drop (inn.next_batter_index + 1) :=
        drop_eq_cons_of_get inn.batting_order inn.next_batter_index nb hg
      have hfresh : nb ∉ inn.batter_innings.map (·.pid) := by
        apply h5
        rw [hdrop]
        exact List.mem_cons_self _ _
      have hput : putBatter (updateBatter inn.batter_innings inn.striker_id
            (fun b => { b with is_out := true,
                               dismissal := o.dismissal_type }))
            (newBatterRec nb)
          = updateBatter inn.batter_innings inn.striker_id
              (fun b => { b with is_out := true,
                                 dismissal := o.dismissal_type })
            ++ [newBatterRec nb] := by
        apply putBatter_of_not_mem
        show nb ∉ _
        rw [hupd]
        exact hfresh
      rw [hput]
      constructor
      · show (((updateBatter inn.batter_innings inn.striker_id
            (fun b => { b with is_out := true,
                               dismissal := o.dismissal_type })
            ++ [newBatterRec nb]).map (·.runs)).sum) = _
        rw [List.map_append, List.sum_append, hsr]
        simp [newBatterRec, sumBatterRuns]
      · show (((updateBatter inn.batter_innings inn.striker_id
            (fun b => { b with is_out := true,
                               dismissal := o.dismissal_type })
            ++ [newBatterRec nb]).map (·.balls)).sum) = _
        rw [List.map_append, List.sum_append, hsb]
        simp [newBatterRec, sumBatterBalls]

theorem recordWicketApi_more_fields (k : Nat) (o : BallOutcome)
    (inn : Innings) :
    (recordWicketApi k o inn).balls = inn.balls ∧
    (recordWicketApi k o inn).overs = inn.overs ∧
    (recordWicketApi k o inn).total_runs = inn.total_runs ∧
    (recordWicketApi k o inn).extras = inn.extras ∧
    (recordWicketApi k o inn).this_over = inn.this_over := by
  cases hg : inn.batting_order.get? inn.next_batter_index with
  | none =>
      simp only [recordWicketApi, hg]
      simp
  | some nb =>
      simp only [recordWicketApi, hg]
      simp

theorem overEndApi_overs (k : Nat) (inn : Innings) :
    (overEndApi k inn).overs = inn.overs + 1 := rfl

theorem overEndApi_balls (k : Nat) (inn : Innings) :
    (overEndApi k inn).balls = 0 := rfl

theorem overEndApi_total (k : Nat) (inn : Innings) :
    (overEndApi k inn).total_runs = inn.total_runs := rfl

theorem overEndApi_extras (k : Nat) (inn : Innings) :
    (overEndApi k inn).extras = inn.extras := rfl

theorem overEndApi_this_over (k : Nat) (inn : Innings) :
    (overEndApi k inn).this_over = inn.this_over := rfl

theorem overEndApi_runsSum (k : Nat) (inn : Innings) :
    sumBatterRuns (overEndApi k inn) = sumBatterRuns inn := rfl

theorem overEndApi_ballsSum (k : Nat) (inn : Innings) :
    sumBatterBalls (overEndApi k inn) = sumBatterBalls inn := rfl

theorem overBallStep_ledger (bw : MPlayer) (a : Aggression) (r : BallRand)
    (bb wto : Nat) (inn : Innings) (hwf : InningsWF inn) :
    InningsWF (overBallStep bw a r bb wto inn).1 ∧
    (overBallStep bw a r bb wto inn).1.overs = inn.overs ∧
    (overBallStep bw a r bb wto inn).1.balls ≤ inn.balls + 1 ∧
    ((overBallStep bw a r bb wto inn).1.balls + sumBatterBalls inn =
      inn.balls + sumBatterBalls (overBallStep bw a r bb wto inn).1) ∧
    ((overBallStep bw a r bb wto inn).1.total_runs + sumBatterRuns inn
        + inn.extras + noBallOverage inn.this_over =
      inn.total_runs + sumBatterRuns (overBallStep bw a r bb wto inn).1
        + (overBallStep bw a r bb wto inn).1.extras
        + noBallOverage (overBallStep bw a r bb wto inn).1.this_over) := by
  have hst : (findPlayer inn.batting_team inn.striker_id).pid
      = inn.striker_id := findPlayer_pid _ _ hwf.2.2.2.2.2.1
  have hmem : (findPlayer inn.batting_team inn.striker_id).pid
      ∈ inn.batter_innings.map (·.pid) := by
    rw [hst]
    exact hwf.2.1
  have hnd : (inn.batter_innings.map (·.pid)).Nodup := hwf.1
  simp only [overBallStep, storedOutcome]
  rcases simulateBall_cases (findPlayer inn.batting_team inn.striker_id)
      bw inn a r with hw | ⟨hw0, hnb, hwk, hruns⟩ | ⟨hw0, hnb⟩
  · refine ⟨by
        simp [hw, emptyOutcome]
        exact rotateStrike_wf _ (recordSpellTotalsOver_wf _ _ _ hwf),
      ?_, ?_, ?_, ?_⟩
    all_goals simp [hw, emptyOutcome, rotateStrike_overs, rotateStrike_balls,
      rotateStrike_total, rotateStrike_extras, rotateStrike_runsSum,
      rotateStrike_ballsSum, rotateStrike_this_over,
      recordSpellTotalsOver_overs, recordSpellTotalsOver_balls,
      recordSpellTotalsOver_total, recordSpellTotalsOver_extras,
      recordSpellTotalsOver_runsSum, recordSpellTotalsOver_ballsSum,
      recordSpellTotalsOver_this_over, recordLegalOver_balls,
      recordLegalOver_overs, recordLegalOver_total, recordLegalOver_extras,
      recordLegalOver_this_over, sumBatterRuns_set_this_over,
      sumBatterBalls_set_this_over, noBallOverage_append]
    all_goals try simp only [sumBatterRuns, sumBatterBalls, noBallOverage]
    all_goals omega
  · by_cases hodd : (simulateBall (findPlayer inn.batting_team inn.striker_id) bw inn a r).runs % 2 = 1
    · have hodd2 : decide ((simulateBall (findPlayer inn.batting_team inn.striker_id) bw inn a r).runs % 2 = 1) = true := decide_eq_true hodd
      refine ⟨by
          simp [hw0, hnb, hwk, hodd2]
          exact rotateStrike_wf _ (recordSpellTotalsOver_wf _ _ _ hwf),
        ?_, ?_, ?_, ?_⟩
      all_goals simp [hw0, hnb, hwk, hodd2, rotateStrike_overs, rotateStrike_balls,
      rotateStrike_total, rotateStrike_extras, rotateStrike_runsSum,
      rotateStrike_ballsSum, rotateStrike_this_over,
      recordSpellTotalsOver_overs, recordSpellTotalsOver_balls,
      recordSpellTotalsOver_total, recordSpellTotalsOver_extras,
      recordSpellTotalsOver_runsSum, recordSpellTotalsOver_ballsSum,
      recordSpellTotalsOver_this_over, recordLegalOver_balls,
      recordLegalOver_overs, recordLegalOver_total, recordLegalOver_extras,
      recordLegalOver_this_over, sumBatterRuns_set_this_over,
      sumBatterBalls_set_this_over, noBallOverage_append]
      all_goals try simp only [sumBatterRuns, sumBatterBalls, noBallOverage]
      all_goals omega
    · have hodd2 : decide ((simulateBall (findPlayer inn.batting_team inn.striker_id) bw inn a r).runs % 2 = 1) = false := decide_eq_false hodd
      refine ⟨by
          simp [hw0, hnb, hwk, hodd2]
          exact recordSpellTotalsOver_wf _ _ _ hwf,
        ?_, ?_, ?_, ?_⟩
      all_goals simp [hw0, hnb, hwk, hodd2, rotateStrike_overs, rotateStrike_balls,
      rotateStrike_total, rotateStrike_extras, rotateStrike_runsSum,
      rotateStrike_ballsSum, rotateStrike_this_over,
      recordSpellTotalsOver_overs, recordSpellTotalsOver_balls,
      recordSpellTotalsOver_total, recordSpellTotalsOver_extras,
      recordSpellTotalsOver_runsSum, recordSpellTotalsOver_ballsSum,
      recordSpellTotalsOver_this_over, recordLegalOver_balls,
      recordLegalOver_overs, recordLegalOver_total, recordLegalOver_extras,
      recordLegalOver_this_over, sumBatterRuns_set_this_over,
      sumBatterBalls_set_this_over, noBallOverage_append]
      all_goals try simp only [sumBatterRuns, sumBatterBalls, noBallOverage]
      all_goals omega
  · by_cases hk : (simulateBall (findPlayer inn.batting_team inn.striker_id) bw inn a r).is_wicket = true
    · by_cases hd : wto ≥ 3
      · have hd2 : decide (wto ≥ 3) = true := decide_eq_true hd
        have hLr := recordLegalOver_runsSum (findPlayer inn.batting_team
            inn.striker_id) (simulateBall (findPlayer inn.batting_team inn.striker_id) bw inn a r)
          { inn with
            this_over := inn.this_over ++
              [{ (simulateBall (findPlayer inn.batting_team inn.striker_id) bw inn a r) with is_wicket := false, runs := 0, dismissal_type := "" }] }
          hnd hmem
        have hLb := recordLegalOver_ballsSum (findPlayer inn.batting_team
            inn.striker_id) (simulateBall (findPlayer inn.batting_team inn.striker_id) bw inn a r)
          { inn with
            this_over := inn.this_over ++
              [{ (simulateBall (findPlayer inn.batting_team inn.striker_id) bw inn a r) with is_wicket := false, runs := 0, dismissal_type := "" }] }
          hnd hmem
        simp [hw0, hnb] at hLr hLb
        refine ⟨by
            simp [hk, hd2, hw0, hnb]
            exact recordSpellTotalsOver_wf _ _ _
              (recordLegalOver_wf (findPlayer inn.batting_team
                inn.striker_id) (simulateBall (findPlayer inn.batting_team inn.striker_id) bw inn a r) _ hwf),
          ?_, ?_, ?_, ?_⟩
        all_goals simp [hk, hd2, hw0, hnb, hLr, hLb, rotateStrike_overs, rotateStrike_balls,
      rotateStrike_total, rotateStrike_extras, rotateStrike_runsSum,
      rotateStrike_ballsSum, rotateStrike_this_over,
      recordSpellTotalsOver_overs, recordSpellTotalsOver_balls,
      recordSpellTotalsOver_total, recordSpellTotalsOver_extras,
      recordSpellTotalsOver_runsSum, recordSpellTotalsOver_ballsSum,
      recordSpellTotalsOver_this_over, recordLegalOver_balls,
      recordLegalOver_overs, recordLegalOver_total, recordLegalOver_extras,
      recordLegalOver_this_over, sumBatterRuns_set_this_over,
      sumBatterBalls_set_this_over, noBallOverage_append]
        all_goals try simp only [sumBatterRuns, sumBatterBalls, noBallOverage]
        all_goals omega
      · have hd2 : decide (wto ≥ 3) = false := decide_eq_false hd
        have hLr := recordLegalOver_runsSum (findPlayer inn.batting_team
            inn.striker_id) (simulateBall (findPlayer inn.batting_team inn.striker_id) bw inn a r)
          { inn with this_over := inn.this_over ++ [(simulateBall (findPlayer inn.batting_team inn.striker_id) bw inn a r)] } hnd hmem
        have hLb := recordLegalOver_ballsSum (findPlayer inn.batting_team
            inn.striker_id) (simulateBall (findPlayer inn.batting_team inn.striker_id) bw inn a r)
          { inn with this_over := inn.this_over ++ [(simulateBall (findPlayer inn.batting_team inn.striker_id) bw inn a r)] } hnd hmem
        have hYwf : InningsWF (recordSpellTotalsOver bw (simulateBall (findPlayer inn.batting_team inn.striker_id) bw inn a r)
            (recordLegalOver (findPlayer inn.batting_team inn.striker_id) (simulateBall (findPlayer inn.batting_team inn.striker_id) bw inn a r)
              { inn with this_over := inn.this_over ++ [(simulateBall (findPlayer inn.batting_team inn.striker_id) bw inn a r)] })) :=
          recordSpellTotalsOver_wf _ _ _
            (recordLegalOver_wf (findPlayer inn.batting_team inn.striker_id)
              (simulateBall (findPlayer inn.batting_team inn.striker_id) bw inn a r) { inn with this_over := inn.this_over ++ [(simulateBall (findPlayer inn.batting_team inn.striker_id) bw inn a r)] } hwf)
        have hWr := recordWicketOver_runsSum bw (simulateBall (findPlayer inn.batting_team inn.striker_id) bw inn a r) _ hYwf
        have hWb := recordWicketOver_ballsSum bw (simulateBall (findPlayer inn.batting_team inn.striker_id) bw inn a r) _ hYwf
        refine ⟨by
            simp [hk, hd2, hw0, hnb]
            exact recordWicketOver_wf bw (simulateBall (findPlayer inn.batting_team inn.striker_id) bw inn a r) _ hYwf,
          ?_, ?_, ?_, ?_⟩
        all_goals simp [hk, hd2, hw0, hnb, hLr, hLb, hWr, hWb,
          recordWicketOver_more_fields, recordWicketOver_this_over, rotateStrike_overs, rotateStrike_balls,
      rotateStrike_total, rotateStrike_extras, rotateStrike_runsSum,
      rotateStrike_ballsSum, rotateStrike_this_over,
      recordSpellTotalsOver_overs, recordSpellTotalsOver_balls,
      recordSpellTotalsOver_total, recordSpellTotalsOver_extras,
      recordSpellTotalsOver_runsSum, recordSpellTotalsOver_ballsSum,
      recordSpellTotalsOver_this_over, recordLegalOver_balls,
      recordLegalOver_overs, recordLegalOver_total, recordLegalOver_extras,
      recordLegalOver_this_over, sumBatterRuns_set_this_over,
      sumBatterBalls_set_this_over, noBallOverage_append]
        all_goals try simp only [sumBatterRuns, sumBatterBalls, noBallOverage]
        all_goals omega
    · rw [Bool.not_eq_true] at hk
      have hLr := recordLegalOver_runsSum (findPlayer inn.batting_team
          inn.striker_id) (simulateBall (findPlayer inn.batting_team inn.striker_id) bw inn a r)
        { inn with this_over := inn.this_over ++ [(simulateBall (findPlayer inn.batting_team inn.striker_id) bw inn a r)] } hnd hmem
      have hLb := recordLegalOver_ballsSum (findPlayer inn.batting_team
          inn.striker_id) (simulateBall (findPlayer inn.batting_team inn.striker_id) bw inn a r)
        { inn with this_over := inn.this_over ++ [(simulateBall (findPlayer inn.batting_team inn.striker_id) bw inn a r)] } hnd hmem
      by_cases hodd : (simulateBall (findPlayer inn.batting_team inn.striker_id) bw inn a r).runs % 2 = 1
      · have hodd2 : decide ((simulateBall (findPlayer inn.batting_team inn.striker_id) bw inn a r).runs % 2 = 1) = true := decide_eq_true hodd
        refine ⟨by
            simp [hk, hodd2, hw0, hnb]
            exact rotateStrike_wf _ (recordSpellTotalsOver_wf _ _ _
              (recordLegalOver_wf (findPlayer inn.batting_team
                inn.striker_id) (simulateBall (findPlayer inn.batting_team inn.striker_id) bw inn a r) _ hwf)),
          ?_, ?_, ?_, ?_⟩
        all_goals simp [hk, hodd2, hw0, hnb, hLr, hLb, rotateStrike_overs, rotateStrike_balls,
      rotateStrike_total, rotateStrike_extras, rotateStrike_runsSum,
      rotateStrike_ballsSum, rotateStrike_this_over,
      recordSpellTotalsOver_overs, recordSpellTotalsOver_balls,
      recordSpellTotalsOver_total, recordSpellTotalsOver_extras,
      recordSpellTotalsOver_runsSum, recordSpellTotalsOver_ballsSum,
      recordSpellTotalsOver_this_over, recordLegalOver_balls,
      recordLegalOver_overs, recordLegalOver_total, recordLegalOver_extras,
      recordLegalOver_this_over, sumBatterRuns_set_this_over,
      sumBatterBalls_set_this_over, noBallOverage_append]
        all_goals try simp only [sumBatterRuns, sumBatterBalls, noBallOverage]
        all_goals omega
      · have hodd2 : decide ((simulateBall (findPlayer inn.batting_team inn.striker_id) bw inn a r).runs % 2 = 1) = false := decide_eq_false hodd
        refine ⟨by
            simp [hk, hodd2, hw0, hnb]
            exact recordSpellTotalsOver_wf _ _ _
              (recordLegalOver_wf (findPlayer inn.batting_team
                inn.striker_id) (simulateBall (findPlayer inn.batting_team inn.striker_id) bw inn a r) _ hwf),
          ?_, ?_, ?_, ?_⟩
        all_goals simp [hk, hodd2, hw0, hnb, hLr, hLb, rotateStrike_overs, rotateStrike_balls,
      rotateStrike_total, rotateStrike_extras, rotateStrike_runsSum,
      rotateStrike_ballsSum, rotateStrike_this_over,
      recordSpellTotalsOver_overs, recordSpellTotalsOver_balls,
      recordSpellTotalsOver_total, recordSpellTotalsOver_extras,
      recordSpellTotalsOver_runsSum, recordSpellTotalsOver_ballsSum,
      recordSpellTotalsOver_this_over, recordLegalOver_balls,
      recordLegalOver_overs, recordLegalOver_total, recordLegalOver_extras,
      recordLegalOver_this_over, sumBatterRuns_set_this_over,
      sumBatterBalls_set_this_over, noBallOverage_append]
        all_goals try simp only [sumBatterRuns, sumBatterBalls, noBallOverage]
        all_goals omega


theorem simulateOverLoop_ledger (bw : MPlayer) (a : Aggression) :
    ∀ (rs : List BallRand) (bb wto : Nat) (inn : Innings),
      InningsWF inn → inn.balls ≤ 5 →
      ((simulateOverLoop bw a rs bb wto inn).overs * 6
          + (simulateOverLoop bw a rs bb wto inn).balls
          + sumBatterBalls inn =
        inn.overs * 6 + inn.balls
          + sumBatterBalls (simulateOverLoop bw a rs bb wto inn)) ∧
      ((simulateOverLoop bw a rs bb wto inn).total_runs + sumBatterRuns inn
          + (inn.extras + noBallOverage inn.this_over) =
        inn.total_runs + sumBatterRuns (simulateOverLoop bw a rs bb wto inn)
          + (simulateOverLoop bw a rs bb wto inn).extras
          + noBallOverage (simulateOverLoop bw a rs bb wto inn).this_over) := by
  intro rs
  induction rs with
  | nil =>
      intro bb wto inn hwf hb
      simp only [simulateOverLoop]
      exact ⟨by trivial, by omega⟩
  | cons r rest ih =>
      intro bb wto inn hwf hb
      obtain ⟨hSwf, hSov, hSb1, hSbl, hSrl⟩ := overBallStep_ledger bw a r bb wto inn hwf
      simp only [simulateOverLoop]
      split_ifs with h1 h2
      · constructor
        · rw [overEnd_overs, overEnd_balls, overEnd_ballsSum]
          omega
        · rw [overEnd_total, overEnd_extras, overEnd_runsSum, overEnd_this_over]
          omega
      · obtain ⟨hr1, hr2⟩ := ih (overBallStep bw a r bb wto inn).2.1
          (overBallStep bw a r bb wto inn).2.2
          (overBallStep bw a r bb wto inn).1 hSwf (by omega)
        exact ⟨by omega, by omega⟩
      · exact ⟨by trivial, by omega⟩

theorem simulateOver_ledger (inn : Innings) (selIdx : Nat)
    (aggr : Aggression) (rands : List BallRand) (hwf : InningsWF inn)
    (hb : inn.balls ≤ 5) :
    ((simulateOver inn selIdx aggr rands).overs * 6
        + (simulateOver inn selIdx aggr rands).balls + sumBatterBalls inn =
      inn.overs * 6 + inn.balls
        + sumBatterBalls (simulateOver inn selIdx aggr rands)) ∧
    ((simulateOver inn selIdx aggr rands).total_runs + sumBatterRuns inn
        + inn.extras =
      inn.total_runs + sumBatterRuns (simulateOver inn selIdx aggr rands)
        + (simulateOver inn selIdx aggr rands).extras
        + noBallOverage (simulateOver inn selIdx aggr rands).this_over) := by
  constructor
  · refine (simulateOverLoop_ledger ?_ aggr rands 0 0 ?_ ?_ ?_).1
    · exact hwf
    · exact hb
  · refine (simulateOverLoop_ledger ?_ aggr rands 0 0 ?_ ?_ ?_).2
    · exact hwf
    · exact hb


theorem playBallBody_ledger (inn : Innings) (aggr : Aggression)
    (r : BallRand) (hwf : InningsWF inn) (hb : inn.balls ≤ 5) :
    ((playBallBody inn aggr r).overs * 6 + (playBallBody inn aggr r).balls
        + sumBatterBalls inn =
      inn.overs * 6 + inn.balls + sumBatterBalls (playBallBody inn aggr r)) ∧
    ((playBallBody inn aggr r).total_runs + sumBatterRuns inn
        + inn.extras =
      inn.total_runs + sumBatterRuns (playBallBody inn aggr r)
        + (playBallBody inn aggr r).extras
        + lastOutcomeOverage (playBallBody inn aggr r)) := by
  have hst : (findPlayer inn.batting_team inn.striker_id).pid = inn.striker_id :=
    findPlayer_pid _ _ hwf.2.2.2.2.2.1
  have hmem : (findPlayer inn.batting_team inn.striker_id).pid ∈ inn.batter_innings.map (·.pid) := by
    rw [hst]
    exact hwf.2.1
  have hnd : (inn.batter_innings.map (·.pid)).Nodup := hwf.1
  simp only [playBallBody]
  rcases simulateBall_cases (findPlayer inn.batting_team inn.striker_id) (findPlayer inn.bowling_team (inn.current_bowler_id.getD 0)) inn aggr r
    with hw | ⟨hw0, hnb, hwk, hruns⟩ | ⟨hw0, hnb⟩
  · -- wide
    simp [hw, emptyOutcome, recordLegalApi_balls, recordLegalApi_overs,
        recordLegalApi_total, recordLegalApi_extras, recordLegalApi_this_over,
        recordSpellTotalsApi_balls, recordSpellTotalsApi_overs,
        recordSpellTotalsApi_total, recordSpellTotalsApi_extras,
        recordSpellTotalsApi_this_over, recordSpellTotalsApi_runsSum,
        recordSpellTotalsApi_ballsSum, rotateStrike_overs, rotateStrike_balls,
        rotateStrike_total, rotateStrike_extras, rotateStrike_runsSum,
        rotateStrike_ballsSum, rotateStrike_this_over, overEndApi_overs,
        overEndApi_balls, overEndApi_total, overEndApi_extras,
        overEndApi_this_over, overEndApi_runsSum, overEndApi_ballsSum,
        recordWicketApi_more_fields, sumBatterRuns_set_this_over,
        sumBatterBalls_set_this_over, sumBatterRuns_set_spells,
        sumBatterBalls_set_spells, lastOutcomeOverage, getLast?_append_one]
    split_ifs with h6
    · exact absurd h6 (by omega)
    · constructor
      all_goals simp [hw, emptyOutcome, recordLegalApi_balls, recordLegalApi_overs,
        recordLegalApi_total, recordLegalApi_extras, recordLegalApi_this_over,
        recordSpellTotalsApi_balls, recordSpellTotalsApi_overs,
        recordSpellTotalsApi_total, recordSpellTotalsApi_extras,
        recordSpellTotalsApi_this_over, recordSpellTotalsApi_runsSum,
        recordSpellTotalsApi_ballsSum, rotateStrike_overs, rotateStrike_balls,
        rotateStrike_total, rotateStrike_extras, rotateStrike_runsSum,
        rotateStrike_ballsSum, rotateStrike_this_over, overEndApi_overs,
        overEndApi_balls, overEndApi_total, overEndApi_extras,
        overEndApi_this_over, overEndApi_runsSum, overEndApi_ballsSum,
        recordWicketApi_more_fields, sumBatterRuns_set_this_over,
        sumBatterBalls_set_this_over, sumBatterRuns_set_spells,
        sumBatterBalls_set_spells, lastOutcomeOverage, getLast?_append_one]
      all_goals try simp only [sumBatterRuns, sumBatterBalls] at *
      all_goals omega
  · -- no-ball
    by_cases hodd : (simulateBall (findPlayer inn.batting_team inn.striker_id) (findPlayer inn.bowling_team (inn.current_bowler_id.getD 0)) inn aggr r).runs % 2 = 1
    · simp [hw0, hnb, hwk, hodd, recordLegalApi_balls, recordLegalApi_overs,
        recordLegalApi_total, recordLegalApi_extras, recordLegalApi_this_over,
        recordSpellTotalsApi_balls, recordSpellTotalsApi_overs,
        recordSpellTotalsApi_total, recordSpellTotalsApi_extras,
        recordSpellTotalsApi_this_over, recordSpellTotalsApi_runsSum,
        recordSpellTotalsApi_ballsSum, rotateStrike_overs, rotateStrike_balls,
        rotateStrike_total, rotateStrike_extras, rotateStrike_runsSum,
        rotateStrike_ballsSum, rotateStrike_this_over, overEndApi_overs,
        overEndApi_balls, overEndApi_total, overEndApi_extras,
        overEndApi_this_over, overEndApi_runsSum, overEndApi_ballsSum,
        recordWicketApi_more_fields, sumBatterRuns_set_this_over,
        sumBatterBalls_set_this_over, sumBatterRuns_set_spells,
        sumBatterBalls_set_spells, lastOutcomeOverage, getLast?_append_one]
      split_ifs with h6
      · exact absurd h6 (by omega)
      · constructor
        all_goals simp [hw0, hnb, hwk, hodd, recordLegalApi_balls, recordLegalApi_overs,
        recordLegalApi_total, recordLegalApi_extras, recordLegalApi_this_over,
        recordSpellTotalsApi_balls, recordSpellTotalsApi_overs,
        recordSpellTotalsApi_total, recordSpellTotalsApi_extras,
        recordSpellTotalsApi_this_over, recordSpellTotalsApi_runsSum,
        recordSpellTotalsApi_ballsSum, rotateStrike_overs, rotateStrike_balls,
        rotateStrike_total, rotateStrike_extras, rotateStrike_runsSum,
        rotateStrike_ballsSum, rotateStrike_this_over, overEndApi_overs,
        overEndApi_balls, overEndApi_total, overEndApi_extras,
        overEndApi_this_over, overEndApi_runsSum, overEndApi_ballsSum,
        recordWicketApi_more_fields, sumBatterRuns_set_this_over,
        sumBatterBalls_set_this_over, sumBatterRuns_set_spells,
        sumBatterBalls_set_spells, lastOutcomeOverage, getLast?_append_one]
        all_goals try simp only [sumBatterRuns, sumBatterBalls] at *
        all_goals omega
    · simp [hw0, hnb, hwk, hodd, recordLegalApi_balls, recordLegalApi_overs,
        recordLegalApi_total, recordLegalApi_extras, recordLegalApi_this_over,
        recordSpellTotalsApi_balls, recordSpellTotalsApi_overs,
        recordSpellTotalsApi_total, recordSpellTotalsApi_extras,
        recordSpellTotalsApi_this_over, recordSpellTotalsApi_runsSum,
        recordSpellTotalsApi_ballsSum, rotateStrike_overs, rotateStrike_balls,
        rotateStrike_total, rotateStrike_extras, rotateStrike_runsSum,
        rotateStrike_ballsSum, rotateStrike_this_over, overEndApi_overs,
        overEndApi_balls, overEndApi_total, overEndApi_extras,
        overEndApi_this_over, overEndApi_runsSum, overEndApi_ballsSum,
        recordWicketApi_more_fields, sumBatterRuns_set_this_over,
        sumBatterBalls_set_this_over, sumBatterRuns_set_spells,
        sumBatterBalls_set_spells, lastOutcomeOverage, getLast?_append_one]
      split_ifs with h6
      · exact absurd h6 (by omega)
      · constructor
        all_goals simp [hw0, hnb, hwk, hodd, recordLegalApi_balls, recordLegalApi_overs,
        recordLegalApi_total, recordLegalApi_extras, recordLegalApi_this_over,
        recordSpellTotalsApi_balls, recordSpellTotalsApi_overs,
        recordSpellTotalsApi_total, recordSpellTotalsApi_extras,
        recordSpellTotalsApi_this_over, recordSpellTotalsApi_runsSum,
        recordSpellTotalsApi_ballsSum, rotateStrike_overs, rotateStrike_balls,
        rotateStrike_total, rotateStrike_extras, rotateStrike_runsSum,
        rotateStrike_ballsSum, rotateStrike_this_over, overEndApi_overs,
        overEndApi_balls, overEndApi_total, overEndApi_extras,
        overEndApi_this_over, overEndApi_runsSum, overEndApi_ballsSum,
        recordWicketApi_more_fields, sumBatterRuns_set_this_over,
        sumBatterBalls_set_this_over, sumBatterRuns_set_spells,
        sumBatterBalls_set_spells, lastOutcomeOverage, getLast?_append_one]
        all_goals try simp only [sumBatterRuns, sumBatterBalls] at *
        all_goals omega
  · -- legal
    have hLr := recordLegalApi_runsSum (findPlayer inn.batting_team inn.striker_id) (simulateBall (findPlayer inn.batting_team inn.striker_id) (findPlayer inn.bowling_team (inn.current_bowler_id.getD 0)) inn aggr r) { inn with this_over := inn.this_over ++ [(simulateBall (findPlayer inn.batting_team inn.striker_id) (findPlayer inn.bowling_team (inn.current_bowler_id.getD 0)) inn aggr r)] } hnd hmem
    have hLb := recordLegalApi_ballsSum (findPlayer inn.batting_team inn.striker_id) (simulateBall (findPlayer inn.batting_team inn.striker_id) (findPlayer inn.bowling_team (inn.current_bowler_id.getD 0)) inn aggr r) { inn with this_over := inn.this_over ++ [(simulateBall (findPlayer inn.batting_team inn.striker_id) (findPlayer inn.bowling_team (inn.current_bowler_id.getD 0)) inn aggr r)] } hnd hmem
    by_cases hk : (simulateBall (findPlayer inn.batting_team inn.striker_id) (findPlayer inn.bowling_team (inn.current_bowler_id.getD 0)) inn aggr r).is_wicket = true
    · have hYwf : InningsWF (recordSpellTotalsApi
          (inn.current_bowler_id.getD 0) (simulateBall (findPlayer inn.batting_team inn.striker_id) (findPlayer inn.bowling_team (inn.current_bowler_id.getD 0)) inn aggr r) { (recordLegalApi (findPlayer inn.batting_team inn.striker_id) (simulateBall (findPlayer inn.batting_team inn.striker_id) (findPlayer inn.bowling_team (inn.current_bowler_id.getD 0)) inn aggr r) { inn with this_over := inn.this_over ++ [(simulateBall (findPlayer inn.batting_team inn.striker_id) (findPlayer inn.bowling_team (inn.current_bowler_id.getD 0)) inn aggr r)] }) with bowler_spells := ensureSpell (recordLegalApi (findPlayer inn.batting_team inn.striker_id) (simulateBall (findPlayer inn.batting_team inn.striker_id) (findPlayer inn.bowling_team (inn.current_bowler_id.getD 0)) inn aggr r) { inn with this_over := inn.this_over ++ [(simulateBall (findPlayer inn.batting_team inn.striker_id) (findPlayer inn.bowling_team (inn.current_bowler_id.getD 0)) inn aggr r)] }).bowler_spells (inn.current_bowler_id.getD 0) }) :=
        recordSpellTotalsApi_wf _ _ _ (recordLegalApi_wf (findPlayer inn.batting_team inn.striker_id) (simulateBall (findPlayer inn.batting_team inn.striker_id) (findPlayer inn.bowling_team (inn.current_bowler_id.getD 0)) inn aggr r) { inn with this_over := inn.this_over ++ [(simulateBall (findPlayer inn.batting_team inn.striker_id) (findPlayer inn.bowling_team (inn.current_bowler_id.getD 0)) inn aggr r)] } hwf)
      have hWr := (recordWicketApi_ledger (inn.current_bowler_id.getD 0)
        (simulateBall (findPlayer inn.batting_team inn.striker_id) (findPlayer inn.bowling_team (inn.current_bowler_id.getD 0)) inn aggr r) _ hYwf).1
      have hWb := (recordWicketApi_ledger (inn.current_bowler_id.getD 0)
        (simulateBall (findPlayer inn.batting_team inn.striker_id) (findPlayer inn.bowling_team (inn.current_bowler_id.getD 0)) inn aggr r) _ hYwf).2
      simp [hw0, hnb, hk, recordLegalApi_balls, recordLegalApi_overs,
        recordLegalApi_total, recordLegalApi_extras, recordLegalApi_this_over,
        recordSpellTotalsApi_balls, recordSpellTotalsApi_overs,
        recordSpellTotalsApi_total, recordSpellTotalsApi_extras,
        recordSpellTotalsApi_this_over, recordSpellTotalsApi_runsSum,
        recordSpellTotalsApi_ballsSum, rotateStrike_overs, rotateStrike_balls,
        rotateStrike_total, rotateStrike_extras, rotateStrike_runsSum,
        rotateStrike_ballsSum, rotateStrike_this_over, overEndApi_overs,
        overEndApi_balls, overEndApi_total, overEndApi_extras,
        overEndApi_this_over, overEndApi_runsSum, overEndApi_ballsSum,
        recordWicketApi_more_fields, sumBatterRuns_set_this_over,
        sumBatterBalls_set_this_over, sumBatterRuns_set_spells,
        sumBatterBalls_set_spells, lastOutcomeOverage, getLast?_append_one] at hLr hLb hWr hWb
      simp [hw0, hnb, hk, hLr, hLb, hWr, hWb, recordLegalApi_balls, recordLegalApi_overs,
        recordLegalApi_total, recordLegalApi_extras, recordLegalApi_this_over,
        recordSpellTotalsApi_balls, recordSpellTotalsApi_overs,
        recordSpellTotalsApi_total, recordSpellTotalsApi_extras,
        recordSpellTotalsApi_this_over, recordSpellTotalsApi_runsSum,
        recordSpellTotalsApi_ballsSum, rotateStrike_overs, rotateStrike_balls,
        rotateStrike_total, rotateStrike_extras, rotateStrike_runsSum,
        rotateStrike_ballsSum, rotateStrike_this_over, overEndApi_overs,
        overEndApi_balls, overEndApi_total, overEndApi_extras,
        overEndApi_this_over, overEndApi_runsSum, overEndApi_ballsSum,
        recordWicketApi_more_fields, sumBatterRuns_set_this_over,
        sumBatterBalls_set_this_over, sumBatterRuns_set_spells,
        sumBatterBalls_set_spells, lastOutcomeOverage, getLast?_append_one]
      split_ifs with h6
      all_goals constructor
      all_goals simp [hw0, hnb, hk, hLr, hLb, hWr, hWb, recordLegalApi_balls, recordLegalApi_overs,
        recordLegalApi_total, recordLegalApi_extras, recordLegalApi_this_over,
        recordSpellTotalsApi_balls, recordSpellTotalsApi_overs,
        recordSpellTotalsApi_total, recordSpellTotalsApi_extras,
        recordSpellTotalsApi_this_over, recordSpellTotalsApi_runsSum,
        recordSpellTotalsApi_ballsSum, rotateStrike_overs, rotateStrike_balls,
        rotateStrike_total, rotateStrike_extras, rotateStrike_runsSum,
        rotateStrike_ballsSum, rotateStrike_this_over, overEndApi_overs,
        overEndApi_balls, overEndApi_total, overEndApi_extras,
        overEndApi_this_over, overEndApi_runsSum, overEndApi_ballsSum,
        recordWicketApi_more_fields, sumBatterRuns_set_this_over,
        sumBatterBalls_set_this_over, sumBatterRuns_set_spells,
        sumBatterBalls_set_spells, lastOutcomeOverage, getLast?_append_one]
      all_goals try simp only [sumBatterRuns, sumBatterBalls] at *
      all_goals omega
    · rw [Bool.not_eq_true] at hk
      by_cases hodd : (simulateBall (findPlayer inn.batting_team inn.striker_id) (findPlayer inn.bowling_team (inn.current_bowler_id.getD 0)) inn aggr r).runs % 2 = 1
      · simp [hw0, hnb, hk, hodd, recordLegalApi_balls, recordLegalApi_overs,
        recordLegalApi_total, recordLegalApi_extras, recordLegalApi_this_over,
        recordSpellTotalsApi_balls, recordSpellTotalsApi_overs,
        recordSpellTotalsApi_total, recordSpellTotalsApi_extras,
        recordSpellTotalsApi_this_over, recordSpellTotalsApi_runsSum,
        recordSpellTotalsApi_ballsSum, rotateStrike_overs, rotateStrike_balls,
        rotateStrike_total, rotateStrike_extras, rotateStrike_runsSum,
        rotateStrike_ballsSum, rotateStrike_this_over, overEndApi_overs,
        overEndApi_balls, overEndApi_total, overEndApi_extras,
        overEndApi_this_over, overEndApi_runsSum, overEndApi_ballsSum,
        recordWicketApi_more_fields, sumBatterRuns_set_this_over,
        sumBatterBalls_set_this_over, sumBatterRuns_set_spells,
        sumBatterBalls_set_spells, lastOutcomeOverage, getLast?_append_one] at hLr hLb
        simp [hw0, hnb, hk, hodd, hLr, hLb, recordLegalApi_balls, recordLegalApi_overs,
        recordLegalApi_total, recordLegalApi_extras, recordLegalApi_this_over,
        recordSpellTotalsApi_balls, recordSpellTotalsApi_overs,
        recordSpellTotalsApi_total, recordSpellTotalsApi_extras,
        recordSpellTotalsApi_this_over, recordSpellTotalsApi_runsSum,
        recordSpellTotalsApi_ballsSum, rotateStrike_overs, rotateStrike_balls,
        rotateStrike_total, rotateStrike_extras, rotateStrike_runsSum,
        rotateStrike_ballsSum, rotateStrike_this_over, overEndApi_overs,
        overEndApi_balls, overEndApi_total, overEndApi_extras,
        overEndApi_this_over, overEndApi_runsSum, overEndApi_ballsSum,
        recordWicketApi_more_fields, sumBatterRuns_set_this_over,
        sumBatterBalls_set_this_over, sumBatterRuns_set_spells,
        sumBatterBalls_set_spells, lastOutcomeOverage, getLast?_append_one]
        split_ifs with h6
        all_goals constructor
        all_goals simp [hw0, hnb, hk, hodd, hLr, hLb, recordLegalApi_balls, recordLegalApi_overs,
        recordLegalApi_total, recordLegalApi_extras, recordLegalApi_this_over,
        recordSpellTotalsApi_balls, recordSpellTotalsApi_overs,
        recordSpellTotalsApi_total, recordSpellTotalsApi_extras,
        recordSpellTotalsApi_this_over, recordSpellTotalsApi_runsSum,
        recordSpellTotalsApi_ballsSum, rotateStrike_overs, rotateStrike_balls,
        rotateStrike_total, rotateStrike_extras, rotateStrike_runsSum,
        rotateStrike_ballsSum, rotateStrike_this_over, overEndApi_overs,
        overEndApi_balls, overEndApi_total, overEndApi_extras,
        overEndApi_this_over, overEndApi_runsSum, overEndApi_ballsSum,
        recordWicketApi_more_fields, sumBatterRuns_set_this_over,
        sumBatterBalls_set_this_over, sumBatterRuns_set_spells,
        sumBatterBalls_set_spells, lastOutcomeOverage, getLast?_append_one]
        all_goals try simp only [sumBatterRuns, sumBatterBalls] at *
        all_goals omega
      · simp [hw0, hnb, hk, hodd, recordLegalApi_balls, recordLegalApi_overs,
        recordLegalApi_total, recordLegalApi_extras, recordLegalApi_this_over,
        recordSpellTotalsApi_balls, recordSpellTotalsApi_overs,
        recordSpellTotalsApi_total, recordSpellTotalsApi_extras,
        recordSpellTotalsApi_this_over, recordSpellTotalsApi_runsSum,
        recordSpellTotalsApi_ballsSum, rotateStrike_overs, rotateStrike_balls,
        rotateStrike_total, rotateStrike_extras, rotateStrike_runsSum,
        rotateStrike_ballsSum, rotateStrike_this_over, overEndApi_overs,
        overEndApi_balls, overEndApi_total, overEndApi_extras,
        overEndApi_this_over, overEndApi_runsSum, overEndApi_ballsSum,
        recordWicketApi_more_fields, sumBatterRuns_set_this_over,
        sumBatterBalls_set_this_over, sumBatterRuns_set_spells,
        sumBatterBalls_set_spells, lastOutcomeOverage, getLast?_append_one] at hLr hLb
        simp [hw0, hnb, hk, hodd, hLr, hLb, recordLegalApi_balls, recordLegalApi_overs,
        recordLegalApi_total, recordLegalApi_extras, recordLegalApi_this_over,
        recordSpellTotalsApi_balls, recordSpellTotalsApi_overs,
        recordSpellTotalsApi_total, recordSpellTotalsApi_extras,
        recordSpellTotalsApi_this_over, recordSpellTotalsApi_runsSum,
        recordSpellTotalsApi_ballsSum, rotateStrike_overs, rotateStrike_balls,
        rotateStrike_total, rotateStrike_extras, rotateStrike_runsSum,
        rotateStrike_ballsSum, rotateStrike_this_over, overEndApi_overs,
        overEndApi_balls, overEndApi_total, overEndApi_extras,
        overEndApi_this_over, overEndApi_runsSum, overEndApi_ballsSum,
        recordWicketApi_more_fields, sumBatterRuns_set_this_over,
        sumBatterBalls_set_this_over, sumBatterRuns_set_spells,
        sumBatterBalls_set_spells, lastOutcomeOverage, getLast?_append_one]
        split_ifs with h6
        all_goals constructor
        all_goals simp [hw0, hnb, hk, hodd, hLr, hLb, recordLegalApi_balls, recordLegalApi_overs,
        recordLegalApi_total, recordLegalApi_extras, recordLegalApi_this_over,
        recordSpellTotalsApi_balls, recordSpellTotalsApi_overs,
        recordSpellTotalsApi_total, recordSpellTotalsApi_extras,
        recordSpellTotalsApi_this_over, recordSpellTotalsApi_runsSum,
        recordSpellTotalsApi_ballsSum, rotateStrike_overs, rotateStrike_balls,
        rotateStrike_total, rotateStrike_extras, rotateStrike_runsSum,
        rotateStrike_ballsSum, rotateStrike_this_over, overEndApi_overs,
        overEndApi_balls, overEndApi_total, overEndApi_extras,
        overEndApi_this_over, overEndApi_runsSum, overEndApi_ballsSum,
        recordWicketApi_more_fields, sumBatterRuns_set_this_over,
        sumBatterBalls_set_this_over, sumBatterRuns_set_spells,
        sumBatterBalls_set_spells, lastOutcomeOverage, getLast?_append_one]
        all_goals try simp only [sumBatterRuns, sumBatterBalls] at *
        all_goals omega

theorem playBall_ledger (inn : Innings) (isUser : Bool) (selIdx : Nat)
    (aggr : Aggression) (r : BallRand) (out : Innings)
    (hwf : InningsWF inn) (hb : inn.balls ≤ 5)
    (h : playBall inn isUser selIdx aggr r = some out) :
    (out.overs * 6 + out.balls + sumBatterBalls inn =
      inn.overs * 6 + inn.balls + sumBatterBalls out) ∧
    (out.total_runs + sumBatterRuns inn + inn.extras =
      inn.total_runs + sumBatterRuns out + out.extras
        + lastOutcomeOverage out) := by
  simp only [playBall] at h
  by_cases hg : inn.balls = 0 ∧ inn.current_bowler_id = none
  · cases hu : isUser with
    | true => simp [hg, hu] at h
    | false =>
        simp [hg, hu] at h
        subst h
        rw [hg.1]
        have hled := playBallBody_ledger
          { inn with balls := 0,
                     current_bowler_id := some (selectBowler inn selIdx).pid,
                     this_over := [] } aggr r hwf (Nat.zero_le 5)
        exact ⟨hled.1, hled.2⟩
  · simp [hg] at h
    subst h
    exact playBallBody_ledger inn aggr r hwf hb

/-- C4 (amended): the legal-delivery and run ledgers, with the no-ball
correction the original claim misses.  On both the engine's
`simulate_over` path and the interactive `play_ball` path, for every
well-formed innings with at most 5 balls in the current over: the
growth of `overs × 6 + balls` equals the growth of the batters'
balls-faced total (each legal delivery is recorded exactly once), and
the growth of `total_runs` equals the growth of the batters' run total
plus the growth of `extras` **plus the batter runs carried by
no-balls** — a no-ball adds 1 extra and its full `runs` value (batter
runs + 1) to the total, while the batter's scorecard is not credited,
so `total_runs = Σ batter runs + extras` does not hold as claimed. -/
theorem c4_runs_ledger_amended :
    (∀ (inn : Innings) (selIdx : Nat) (aggr : Aggression)
       (rands : List BallRand), InningsWF inn → inn.balls ≤ 5 →
       ((simulateOver inn selIdx aggr rands).overs * 6
           + (simulateOver inn selIdx aggr rands).balls + sumBatterBalls inn =
         inn.overs * 6 + inn.balls
           + sumBatterBalls (simulateOver inn selIdx aggr rands)) ∧
       ((simulateOver inn selIdx aggr rands).total_runs + sumBatterRuns inn
           + inn.extras =
         inn.total_runs + sumBatterRuns (simulateOver inn selIdx aggr rands)
           + (simulateOver inn selIdx aggr rands).extras
           + noBallOverage (simulateOver inn selIdx aggr rands).this_over)) ∧
    (∀ (inn : Innings) (isUser : Bool) (selIdx : Nat) (aggr : Aggression)
       (r : BallRand) (out : Innings), InningsWF inn → inn.balls ≤ 5 →
       playBall inn isUser selIdx aggr r = some out →
       (out.overs * 6 + out.balls + sumBatterBalls inn =
         inn.overs * 6 + inn.balls + sumBatterBalls out) ∧
       (out.total_runs + sumBatterRuns inn + inn.extras =
         inn.total_runs + sumBatterRuns out + out.extras
           + lastOutcomeOverage out)) :=
  ⟨fun inn selIdx aggr rands hwf hb =>
    simulateOver_ledger inn selIdx aggr rands hwf hb,
   fun inn isUser selIdx aggr r out hwf hb h =>
    playBall_ledger inn isUser selIdx aggr r out hwf hb h⟩

/-- C4 (counterexample — the claimed `total_runs = Σ batter runs +
extras` identity is false on the code): one simulated no-ball with 2
batter runs leaves the innings at `total_runs = 3` with batter total 0
and `extras = 1`, and `3 ≠ 0 + 1`. -/
theorem c4_ledger_counterexample :
    (simulateOver exInnings 0 Aggression.balanced [noBallRand]).total_runs
        = 3 ∧
    sumBatterRuns (simulateOver exInnings 0 Aggression.balanced [noBallRand])
        = 0 ∧
    (simulateOver exInnings 0 Aggression.balanced [noBallRand]).extras = 1 ∧
    (simulateOver exInnings 0 Aggression.balanced [noBallRand]).total_runs ≠
      sumBatterRuns (simulateOver exInnings 0 Aggression.balanced [noBallRand])
        + (simulateOver exInnings 0 Aggression.balanced [noBallRand]).extras :=
  ⟨by decide, by decide, by decide, by decide⟩

/-- C4 witness: the amended ledger instantiated on the example innings
and the no-ball oracle, on both paths. -/
theorem c4_runs_ledger_amended_witness :
    (InningsWF exInnings ∧ exInnings.balls ≤ 5 ∧
      playBall exInnings false 0 Aggression.balanced noBallRand =
        some (playBallBody exInnings Aggression.balanced noBallRand)) ∧
    ((simulateOver exInnings 0 Aggression.balanced [noBallRand]).total_runs
        + sumBatterRuns exInnings + exInnings.extras =
      exInnings.total_runs
        + sumBatterRuns (simulateOver exInnings 0 Aggression.balanced
            [noBallRand])
        + (simulateOver exInnings 0 Aggression.balanced [noBallRand]).extras
        + noBallOverage (simulateOver exInnings 0 Aggression.balanced
            [noBallRand]).this_over) ∧
    ((playBallBody exInnings Aggression.balanced noBallRand).total_runs
        + sumBatterRuns exInnings + exInnings.extras =
      exInnings.total_runs
        + sumBatterRuns (playBallBody exInnings Aggression.balanced noBallRand)
        + (playBallBody exInnings Aggression.balanced noBallRand).extras
        + lastOutcomeOverage (playBallBody exInnings Aggression.balanced
            noBallRand)) :=
  ⟨⟨by decide, by decide, by decide⟩,
   (c4_runs_ledger_amended.1 exInnings 0 Aggression.balanced [noBallRand]
      (by decide) (by decide)).2,
   (c4_runs_ledger_amended.2 exInnings false 0 Aggression.balanced noBallRand
      (playBallBody exInnings Aggression.balanced noBallRand)
      (by decide) (by decide) (by decide)).2⟩


/-! ## C9: league fixture generation -/


theorem perm_cons_erase_lawful {α : Type} [BEq α] [LawfulBEq α] :
    ∀ (l : List α) (a : α), a ∈ l → l.Perm (a :: l.erase a) := by
  intro l
  induction l with
  | nil => intro a h; exact absurd h (List.not_mem_nil a)
  | cons x xs ih =>
      intro a h
      cases hxa : x == a with
      | true =>
          obtain rfl : x = a := eq_of_beq hxa
          have he : (x :: xs).erase x = xs := by simp [List.erase_cons]
          rw [he]
      | false =>
          have hne : x ≠ a := by
            intro he
            rw [he] at hxa
            simp at hxa
          have ha : a ∈ xs := by
            rcases List.mem_cons.mp h with h1 | h1
            · exact absurd h1.symm hne
            · exact h1
          have he : (x :: xs).erase a = x :: xs.erase a := by
            simp [List.erase_cons, hxa]
          rw [he]
          exact ((ih a ha).cons x).trans (List.Perm.swap a x (xs.erase a))

theorem pickBestAux_ne_none (mn : Int) (last : Nat → Int) :
    ∀ (l : List Matchup) (m0 : Matchup) (s : Int),
      pickBestAux mn last l (some m0) s ≠ none := by
  intro l
  induction l with
  | nil => intro m0 s h; exact Option.noConfusion h
  | cons m rest ih =>
      intro m0 s
      simp only [pickBestAux]
      split_ifs
      · exact ih m _
      · exact ih m0 s

theorem pickBestAux_mem (mn : Int) (last : Nat → Int) :
    ∀ (l : List Matchup) (best : Option Matchup) (s : Int) (m : Matchup),
      pickBestAux mn last l best s = some m → best = some m ∨ m ∈ l := by
  intro l
  induction l with
  | nil => intro best s m h; exact Or.inl h
  | cons x rest ih =>
      intro best s m h
      simp only [pickBestAux] at h
      by_cases hc : min (mn - last x.1.tid) (mn - last x.2.tid) > s
      · rw [if_pos hc] at h
        rcases ih _ _ _ h with h3 | h3
        · obtain rfl := Option.some.inj h3
          exact Or.inr (List.mem_cons_self _ _)
        · exact Or.inr (List.mem_cons_of_mem _ h3)
      · rw [if_neg hc] at h
        rcases ih _ _ _ h with h3 | h3
        · exact Or.inl h3
        · exact Or.inr (List.mem_cons_of_mem _ h3)

theorem pickBest_exists (mn : Int) (last : Nat → Int) (l : List Matchup)
    (hne : l ≠ []) (hl : ∀ tid, last tid < mn) :
    ∃ m, pickBest mn last l = some m ∧ m ∈ l := by
  cases l with
  | nil => exact absurd rfl hne
  | cons x rest =>
      unfold pickBest
      simp only [pickBestAux]
      have hc : min (mn - last x.1.tid) (mn - last x.2.tid) > -1 := by
        have h1 := hl x.1.tid
        have h2 := hl x.2.tid
        omega
      rw [if_pos hc]
      cases hres : pickBestAux mn last rest (some x)
          (min (mn - last x.1.tid) (mn - last x.2.tid)) with
      | none => exact absurd hres (pickBestAux_ne_none mn last rest x _)
      | some m =>
          refine ⟨m, rfl, ?_⟩
          rcases pickBestAux_mem mn last rest _ _ m hres with h3 | h3
          · obtain rfl := Option.some.inj h3
            exact List.mem_cons_self _ _
          · exact List.mem_cons_of_mem _ h3

theorem buildMatchups_mem : ∀ (ts : List STeam) (m : Matchup),
    m ∈ buildMatchups ts → m.1 ∈ ts ∧ m.2 ∈ ts := by
  intro ts
  induction ts with
  | nil => intro m h; simp [buildMatchups] at h
  | cons u vs ih =>
      intro m h
      simp only [buildMatchups, List.mem_append] at h
      rcases h with h | h
      · rw [List.mem_flatten] at h
        obtain ⟨l2, hl2, hm⟩ := h
        rw [List.mem_map] at hl2
        obtain ⟨v, hv, rfl⟩ := hl2
        simp only [List.mem_cons, List.mem_singleton, List.not_mem_nil] at hm
        rcases hm with rfl | hm
        · exact ⟨List.mem_cons_self _ _, List.mem_cons_of_mem _ hv⟩
        · rcases hm with rfl | hm
          · exact ⟨List.mem_cons_of_mem _ hv, List.mem_cons_self _ _⟩
          · exact absurd hm (by simp)
      · have h2 := ih m h
        exact ⟨List.mem_cons_of_mem _ h2.1, List.mem_cons_of_mem _ h2.2⟩

theorem buildMatchups_pairs_length (u : STeam) :
    ∀ (vs : List STeam),
      ((vs.map (fun v => [(u, v), (v, u)])).flatten).length
        = 2 * vs.length := by
  intro vs
  induction vs with
  | nil => rfl
  | cons v ws ih =>
      simp only [List.map_cons, List.flatten_cons, List.length_append,
        List.length_cons, List.length_nil, ih]
      omega

theorem buildMatchups_length : ∀ (ts : List STeam),
    (buildMatchups ts).length + ts.length = ts.length * ts.length := by
  intro ts
  induction ts with
  | nil => rfl
  | cons u vs ih =>
      simp only [buildMatchups, List.length_append,
        buildMatchups_pairs_length, List.length_cons]
      have hx : (vs.length + 1) * (vs.length + 1)
          = vs.length * vs.length + 2 * vs.length + 1 := by ring
      omega

theorem pairs_countP_self (u : STeam) :
    ∀ (vs : List STeam),
      ((vs.map (fun v => [(u, v), (v, u)])).flatten).countP
        (fun m => m.1.tid == u.tid || m.2.tid == u.tid) = 2 * vs.length := by
  intro vs
  induction vs with
  | nil => rfl
  | cons v ws ih =>
      simp only [List.map_cons, List.flatten_cons, List.countP_append, ih,
        List.countP_cons, List.countP_nil]
      simp
      omega

theorem pairs_countP_other (u t : STeam) (hne : u.tid ≠ t.tid) :
    ∀ (vs : List STeam),
      ((vs.map (fun v => [(u, v), (v, u)])).flatten).countP
        (fun m => m.1.tid == t.tid || m.2.tid == t.tid)
        = 2 * vs.countP (fun v => v.tid == t.tid) := by
  intro vs
  have hu : (u.tid == t.tid) = false := by
    rw [beq_eq_false_iff_ne]
    exact hne
  induction vs with
  | nil => rfl
  | cons v ws ih =>
      simp only [List.map_cons, List.flatten_cons, List.countP_append, ih,
        List.countP_cons, List.countP_nil]
      cases hvb : v.tid == t.tid <;> simp [hu, hvb] <;> omega

theorem countP_tid_eq_one : ∀ (ts : List STeam) (t : STeam),
    (ts.map (·.tid)).Nodup → t ∈ ts →
    ts.countP (fun v => v.tid == t.tid) = 1 := by
  intro ts
  induction ts with
  | nil => intro t _ ht; simp at ht
  | cons v ws ih =>
      intro t hnd ht
      simp only [List.map_cons, List.nodup_cons] at hnd
      obtain ⟨hvn, hndw⟩ := hnd
      rcases List.mem_cons.mp ht with rfl | ht2
      · have h0 : ws.countP (fun w => w.tid == t.tid) = 0 := by
          rw [List.countP_eq_zero]
          intro w hw hwp
          exact hvn (List.mem_map.mpr ⟨w, hw, beq_iff_eq.mp hwp⟩)
        simp [List.countP_cons, h0]
      · have hvt : (v.tid == t.tid) = false := by
          rw [beq_eq_false_iff_ne]
          intro he
          exact hvn (by rw [he]; exact List.mem_map.mpr ⟨t, ht2, rfl⟩)
        simp [List.countP_cons, hvt, ih t hndw ht2]

theorem buildMatchups_countP : ∀ (ts : List STeam) (t : STeam),
    (ts.map (·.tid)).Nodup → t ∈ ts →
    (buildMatchups ts).countP
      (fun m => m.1.tid == t.tid || m.2.tid == t.tid)
      = 2 * (ts.length - 1) := by
  intro ts
  induction ts with
  | nil => intro t _ ht; simp at ht
  | cons u vs ih =>
      intro t hnd ht
      simp only [List.map_cons, List.nodup_cons] at hnd
      obtain ⟨hun, hndv⟩ := hnd
      simp only [buildMatchups, List.countP_append]
      rcases List.mem_cons.mp ht with rfl | ht2
      · rw [pairs_countP_self]
        have h0 : (buildMatchups vs).countP
            (fun m => m.1.tid == t.tid || m.2.tid == t.tid) = 0 := by
          rw [List.countP_eq_zero]
          intro m hm hp
          obtain ⟨hm1, hm2⟩ := buildMatchups_mem vs m hm
          simp only [Bool.or_eq_true, beq_iff_eq] at hp
          rcases hp with hp | hp
          · exact hun (by rw [← hp]; exact List.mem_map.mpr ⟨m.1, hm1, rfl⟩)
          · exact hun (by rw [← hp]; exact List.mem_map.mpr ⟨m.2, hm2, rfl⟩)
        rw [h0]
        simp only [List.length_cons]
        omega
      · have hut : u.tid ≠ t.tid := by
          intro he
          exact hun (by rw [he]; exact List.mem_map.mpr ⟨t, ht2, rfl⟩)
        rw [pairs_countP_other u t hut, countP_tid_eq_one vs t hndv ht2,
          ih t hndv ht2]
        have h1 : 1 ≤ vs.length := List.length_pos.mpr (List.ne_nil_of_mem ht2)
        simp only [List.length_cons]
        omega

theorem scheduleAux_spec : ∀ (fuel : Nat) (mn : Nat) (last : Nat → Int)
    (rem : List Matchup), rem.length = fuel →
    (∀ tid, last tid < (mn : Int)) →
    (scheduleAux fuel mn last rem).length = fuel ∧
    (scheduleAux fuel mn last rem).map (·.match_number)
      = List.range' mn fuel ∧
    (∀ tid, ((scheduleAux fuel mn last rem).filter
        (fun f => f.team1 == tid || f.team2 == tid)).length =
      (rem.filter (fun mm => mm.1.tid == tid || mm.2.tid == tid)).length) := by
  intro fuel
  induction fuel with
  | zero =>
      intro mn last rem hlen hlast
      obtain rfl : rem = [] := List.length_eq_zero.mp hlen
      exact ⟨rfl, rfl, fun tid => rfl⟩
  | succ n ih =>
      intro mn last rem hlen hlast
      have hne : rem ≠ [] := by
        intro h
        rw [h] at hlen
        simp at hlen
      obtain ⟨m, hpick, hmem⟩ := pickBest_exists (mn : Int) last rem hne hlast
      simp only [scheduleAux, hpick]
      have hlen2 : (rem.erase m).length = n := by
        rw [List.length_erase_of_mem hmem, hlen]
        omega
      have hlast2 : ∀ tid,
          (if tid = m.2.tid then (mn : Int)
           else if tid = m.1.tid then (mn : Int) else last tid)
            < ((mn + 1 : Nat) : Int) := by
        intro tid
        have h := hlast tid
        split_ifs <;> omega
      obtain ⟨ih1, ih2, ih3⟩ := ih (mn + 1)
        (fun tid => if tid = m.2.tid then (mn : Int)
          else if tid = m.1.tid then (mn : Int) else last tid)
        (rem.erase m) hlen2 hlast2
      refine ⟨?_, ?_, ?_⟩
      · simp only [List.length_cons, ih1]
      · simp only [List.map_cons, ih2]
        rfl
      · intro tid
        have hperm := perm_cons_erase_lawful rem m hmem
        have hflen : (rem.filter
              (fun mm => mm.1.tid == tid || mm.2.tid == tid)).length
            = ((m :: rem.erase m).filter
              (fun mm => mm.1.tid == tid || mm.2.tid == tid)).length :=
          (hperm.filter _).length_eq
        rw [hflen]
        cases hq : (m.1.tid == tid || m.2.tid == tid) with
        | true => simp [List.filter_cons, hq, ih3 tid]
        | false => simp [List.filter_cons, hq, ih3 tid]

/-- C9 (confirmed): for every list of 8 teams with distinct ids and
every shuffle of the matchup enumeration, the fixture-generation loop
terminates having consumed every matchup: it produces exactly 56
league fixtures, their match numbers are the contiguous sequence
1..56, and every team appears in exactly 14 of them. -/
theorem c9_league_fixtures (teams : List STeam) (shuffled : List Matchup)
    (h8 : teams.length = 8) (hnd : (teams.map (·.tid)).Nodup)
    (hperm : shuffled.Perm (buildMatchups teams)) :
    (generateLeagueFixtures shuffled).length = 56 ∧
    (generateLeagueFixtures shuffled).map (·.match_number)
      = List.range' 1 56 ∧
    (∀ t ∈ teams, ((generateLeagueFixtures shuffled).filter
        (fun f => f.team1 == t.tid || f.team2 == t.tid)).length = 14) := by
  have hlen : shuffled.length = 56 := by
    rw [hperm.length_eq]
    have h := buildMatchups_length teams
    rw [h8] at h
    omega
  obtain ⟨h1, h2, h3⟩ := scheduleAux_spec shuffled.length 1 (fun _ => -3)
    shuffled rfl (fun tid => by norm_num)
  unfold generateLeagueFixtures
  refine ⟨?_, ?_, ?_⟩
  · rw [h1, hlen]
  · rw [h2, hlen]
  · intro t ht
    rw [h3 t.tid]
    have hflen := (hperm.filter
      (fun mm => mm.1.tid == t.tid || mm.2.tid == t.tid)).length_eq
    rw [hflen]
    rw [← List.countP_eq_length_filter]
    rw [buildMatchups_countP teams t hnd ht, h8]

/-- C9 witness: the eight concrete teams, with the identity shuffle. -/
theorem c9_league_fixtures_witness :
    (c9Teams.length = 8 ∧ (c9Teams.map (·.tid)).Nodup ∧
      (buildMatchups c9Teams).Perm (buildMatchups c9Teams)) ∧
    (generateLeagueFixtures (buildMatchups c9Teams)).length = 56 ∧
    (generateLeagueFixtures (buildMatchups c9Teams)).map (·.match_number)
      = List.range' 1 56 ∧
    (∀ t ∈ c9Teams, ((generateLeagueFixtures (buildMatchups c9Teams)).filter
        (fun f => f.team1 == t.tid || f.team2 == t.tid)).length = 14) :=
  ⟨⟨by decide, by decide, List.Perm.refl _⟩,
   c9_league_fixtures c9Teams (buildMatchups c9Teams) (by decide) (by decide)
     (List.Perm.refl _)⟩

end Willow
